import Mathlib

/-!
CommonEase: document analysis pipeline, chat session and library filter.

A shallow embedding of the stateful cores of the application:

* `src/Pages/Upload.js`: file selection (`validateFile`, `handleDrop`,
  `handleFileSelect`, `capturePhoto`) and the analysis pipeline
  `processDocument`;
* `src/Pages/Chat.js`: the chat turn `sendMessage`, and the loading of documents
  and conversations (`loadInitialData`, `loadConversation`,
  `handleDocumentSelect`);
* `src/Pages/Library.js`: the list filter `filterDocuments`.

React state is an explicit record; an event handler is a function from the
state (and the responses of the external services it awaits) to the new state
together with the list of service calls it made, in order.
-/

namespace CommonEase

/-! ## JavaScript values -/

/-- The Number nearest to the natural number `m`, as an exact integer: round to
nearest on a 53-bit significand, ties to even; `none` is `Infinity`. -/
def roundToDouble (m : Nat) : Option Nat :=
  let bits := (Nat.toDigits 2 m).length
  if bits ≤ 53 then some m
  else
    let e := bits - 53
    let q := m / 2 ^ e
    let r := m % 2 ^ e
    let half := 2 ^ (e - 1)
    let q2 := if r > half ∨ (r = half ∧ q % 2 = 1) then q + 1 else q
    let v := q2 * 2 ^ e
    if (Nat.toDigits 2 v).length > 1024 then none else some v

/-- Among the multiples of `10 ^ p` next to the Number `x`, the one whose Number
value is `x`; when both are, the closer one, and on a tie the one with an even
digit string. -/
def shortestCandidate (x p : Nat) : Option Nat :=
  let lo := x / 10 ^ p * 10 ^ p
  let hi := lo + 10 ^ p
  let okLo := roundToDouble lo == some x
  let okHi := roundToDouble hi == some x
  if okLo && okHi then
    if x - lo < hi - x then some lo
    else if hi - x < x - lo then some hi
    else if (lo / 10 ^ p) % 2 = 0 then some lo else some hi
  else if okLo then some lo
  else if okHi then some hi
  else none

/-- The decimal with the fewest significant digits whose Number value is `x`
(the digits `s` and the exponent `n` of `Number::toString`, as one integer). -/
def shortestDecimal (x : Nat) : Nat :=
  match (List.range ((Nat.toDigits 10 x).length + 1)).reverse.findSome?
      (shortestCandidate x) with
  | some v => v
  | none => x

/-- String conversion of a non-negative integer Number (`Number::toString`):
the shortest digits followed by zeros up to 21 digits, exponent form beyond. -/
def jsNatToString (m : Nat) : String :=
  match roundToDouble m with
  | none => "Infinity"
  | some x =>
    let digits := Nat.toDigits 10 (shortestDecimal x)
    if digits.length ≤ 21 then String.mk digits
    else
      match (digits.reverse.dropWhile (· == '0')).reverse with
      | [] => String.mk digits
      | first :: rest =>
        String.mk (first :: (if rest.isEmpty then [] else '.' :: rest) ++ ['e', '+'] ++
          Nat.toDigits 10 (digits.length - 1))

/-- String conversion of an integer Number. -/
def jsNumberToString (n : Int) : String :=
  if n < 0 then "-" ++ jsNatToString n.natAbs else jsNatToString n.natAbs

/-- The function-valued properties every plain object inherits from
`Object.prototype`, each with the `name` of its function. The inherited
`__proto__` is the prototype object itself, which has no `name`. -/
def objectPrototypeFunctions : List (String × String) :=
  [("constructor", "Object"),
   ("__defineGetter__", "__defineGetter__"),
   ("__defineSetter__", "__defineSetter__"),
   ("hasOwnProperty", "hasOwnProperty"),
   ("__lookupGetter__", "__lookupGetter__"),
   ("__lookupSetter__", "__lookupSetter__"),
   ("isPrototypeOf", "isPrototypeOf"),
   ("propertyIsEnumerable", "propertyIsEnumerable"),
   ("toString", "toString"),
   ("valueOf", "valueOf"),
   ("toLocaleString", "toLocaleString")]

/-- A JSON-like JavaScript value, with `undefined` for an absent property; a
number is given by an integer and is the Number nearest to it. -/
inductive JVal where
  | undefined
  | null
  | bool (b : Bool)
  | num (n : Int)
  | str (s : String)
  | arr (items : List JVal)
  | obj (fields : List (String × JVal))

namespace JVal

/-- JavaScript truthiness (`!!v`). -/
def truthy : JVal → Bool
  | undefined => false
  | null => false
  | bool b => b
  | num n => n != 0
  | str s => s != ""
  | arr _ => true
  | obj _ => true

/-- The JavaScript expression `a || b`. -/
def or (a b : JVal) : JVal :=
  if a.truthy then a else b

/-- Property read `v.key` for a key that is not a built-in property: a
`TypeError` on `undefined` and `null`, the stored value on an object that has
the key, `undefined` otherwise. -/
def getProp (v : JVal) (key : String) : Except String JVal :=
  match v with
  | undefined => .error "TypeError"
  | null => .error "TypeError"
  | obj fields => .ok ((fields.lookup key).getD undefined)
  | _ => .ok undefined

/-- The JavaScript test `v === s` against a string literal `s`. -/
def strictEqStr (v : JVal) (s : String) : Bool :=
  match v with
  | str t => t == s
  | _ => false

/-- The test `v == null` (true of `null` and `undefined` only). -/
def isNullish : JVal → Bool
  | undefined => true
  | null => true
  | _ => false

mutual
/-- String conversion as done by a template literal `${v}`. -/
def toStr : JVal → String
  | undefined => "undefined"
  | null => "null"
  | bool true => "true"
  | bool false => "false"
  | num n => jsNumberToString n
  | str s => s
  | arr items => joinItems items
  | obj _ => "[object Object]"
/-- The method `Array.prototype.join` with the default separator. -/
def joinItems : List JVal → String
  | [] => ""
  | [x] => elemStr x
  | x :: y :: rest => elemStr x ++ "," ++ joinItems (y :: rest)
/-- String conversion of one array element inside `join`. -/
def elemStr : JVal → String
  | undefined => ""
  | null => ""
  | v => toStr v
end

end JVal

/-- The method `String.prototype.startsWith`. -/
def jsStartsWith (s pre : String) : Bool :=
  pre.toList.isPrefixOf s.toList

/-- The characters removed by `String.prototype.trim`: ECMAScript white space
and line terminators. -/
def jsIsWhitespace (c : Char) : Bool :=
  let n := c.toNat
  n == 0x09 || n == 0x0A || n == 0x0B || n == 0x0C || n == 0x0D || n == 0x20 ||
  n == 0xA0 || n == 0x1680 || (0x2000 ≤ n && n ≤ 0x200A) || n == 0x2028 ||
  n == 0x2029 || n == 0x202F || n == 0x205F || n == 0x3000 || n == 0xFEFF

/-- The method `String.prototype.trim`. -/
def jsTrim (s : String) : String :=
  String.mk ((s.toList.dropWhile jsIsWhitespace).reverse.dropWhile jsIsWhitespace).reverse

/-! ## Upload page: state and file selection (`src/Pages/Upload.js`) -/

namespace Upload

/-- A browser `File`: the three properties the page reads. -/
structure JFile where
  name : String
  type : String
  size : Nat
  deriving DecidableEq, Repr

/-- The `value`s of the `CATEGORIES` table, in order. -/
def CATEGORIES : List String :=
  ["legal", "medical", "government", "financial", "employment", "academic"]

/-- The `value`s of the `LANGUAGES` table, in order. -/
def LANGUAGES : List String :=
  ["english", "hindi", "tamil", "bengali", "malayalam"]

/-- The table `languageMap` of `Upload.js`. -/
def languageMap : List (String × String) :=
  [("english", "English"), ("hindi", "Hindi"), ("tamil", "Tamil"),
   ("bengali", "Bengali"), ("malayalam", "Malayalam")]

/-- The expression `languageMap[language] || 'the specified language'`. -/
def languageName (language : String) : String :=
  match languageMap.lookup language with
  | some name => name
  | none => "the specified language"

/-- The `useState` cells of the `Upload` component. -/
structure UploadState where
  selectedFile : Option JFile
  category : String
  language : String
  isProcessing : Bool
  progress : Nat
  error : String
  dragActive : Bool
  showCamera : Bool
  isCameraReady : Bool
  deriving DecidableEq, Repr

/-- The state of a freshly mounted `Upload` component. -/
def UploadState.init : UploadState :=
  { selectedFile := none, category := "", language := "english",
    isProcessing := false, progress := 0, error := "",
    dragActive := false, showCamera := false, isCameraReady := false }

/-- The constant `validTypes` of `validateFile`. -/
def validTypes : List String :=
  ["application/pdf", "image/jpeg", "image/jpg", "image/png"]

/-- The constant `maxSize` of `validateFile`. -/
def maxSize : Nat := 10 * 1024 * 1024

/-- The function `validateFile`: its return value and the state after its
`setError` call. -/
def validateFile (s : UploadState) (file : JFile) : Bool × UploadState :=
  if !validTypes.contains file.type then
    (false, { s with error := "Please upload a PDF, JPEG, or PNG file" })
  else if file.size > maxSize then
    (false, { s with error := "File size must be less than 10MB" })
  else
    (true, { s with error := "" })

/-- The handler `handleDrag`, on the event type. -/
def handleDrag (s : UploadState) (type : String) : UploadState :=
  if type = "dragenter" ∨ type = "dragover" then { s with dragActive := true }
  else if type = "dragleave" then { s with dragActive := false }
  else s

/-- The handler `handleDrop`, on `e.dataTransfer.files`. -/
def handleDrop (s : UploadState) (files : List JFile) : UploadState :=
  let s := { s with dragActive := false }
  match files with
  | [] => s
  | file :: _ =>
    match validateFile s file with
    | (true, s1) => { s1 with selectedFile := some file }
    | (false, s1) => s1

/-- The handler `handleFileSelect`, on `e.target.files?.[0]`. -/
def handleFileSelect (s : UploadState) (file : Option JFile) : UploadState :=
  match file with
  | none => s
  | some file =>
    match validateFile s file with
    | (true, s1) => { s1 with selectedFile := some file }
    | (false, s1) => s1

/-- The function `startCamera`; `granted` tells whether `getUserMedia`
resolved. -/
def startCamera (s : UploadState) (granted : Bool) : UploadState :=
  if granted then { s with isCameraReady := true }
  else { s with error := "Unable to access camera. Please ensure you've granted permission." }

/-- The function `stopCamera`. -/
def stopCamera (s : UploadState) : UploadState :=
  { s with isCameraReady := false }

/-- The function `capturePhoto` together with its `toBlob` callback:
`videoMounted` is `videoRef.current` being set, `blobSize` the size of the
encoded JPEG and `now` the value of `Date.now()`. -/
def capturePhoto (s : UploadState) (videoMounted : Bool) (blobSize now : Nat) : UploadState :=
  if !videoMounted || !s.isCameraReady then s
  else
    let file : JFile :=
      { name := "document-" ++ toString now ++ ".jpg", type := "image/jpeg", size := blobSize }
    stopCamera { s with selectedFile := some file, showCamera := false }

/-- The mount effect reading the `category` URL parameter. -/
def applyCategoryParam (s : UploadState) (categoryParam : Option String) : UploadState :=
  match categoryParam with
  | none => s
  | some c => if c ≠ "" ∧ CATEGORIES.contains c then { s with category := c } else s

/-! ## Upload page: the analysis pipeline `processDocument` -/

/-- The record `documentData` handed to `Document.create`. -/
structure DocumentData where
  title : String
  category : String
  file_url : JVal
  original_text : JVal
  simplified_summary : JVal
  key_points : JVal
  language : String
  processing_status : String
  file_type : String
  medical_severity : JVal
  legal_rights_summary : JVal
  suggested_next_steps : JVal

/-- A call made by `processDocument` to an external service, with its
arguments. -/
inductive UploadCall where
  | uploadFile (file : JFile)
  | extractData (file_url : JVal) (json_schema : JVal)
  | invokeLLM (prompt : String) (response_json_schema : JVal)
  | documentCreate (documentData : DocumentData)

/-- What each awaited service call of one `processDocument` run resolves to:
`.error` is a rejected promise, `.ok v` the resolved value. -/
structure UploadResponses where
  uploadFile : Except String JVal
  extractData : Except String JVal
  invokeLLM : Except String JVal
  documentCreate : Except String Unit

/-- The `json_schema` argument of the extraction call. -/
def extractSchema : JVal :=
  .obj [("type", .str "object"),
        ("properties", .obj [("text_content",
          .obj [("type", .str "string"),
                ("description", .str "Extracted text content from the document")])])]

/-- The extraction step (lines 191-207): the calls made and either the thrown
error or the value of `extractedText`. -/
def extractStep (file : JFile) (file_url : JVal) (g : UploadResponses) :
    List UploadCall × Except String JVal :=
  if file.type = "application/pdf" ∨ jsStartsWith file.type "image/" then
    let calls := [UploadCall.extractData file_url extractSchema]
    match g.extractData with
    | .error e => (calls, .error e)
    | .ok extractResult =>
      match extractResult.getProp "status" with
      | .error e => (calls, .error e)
      | .ok status =>
        if status.strictEqStr "success" then
          match extractResult.getProp "output" with
          | .error e => (calls, .error e)
          | .ok output =>
            match output.getProp "text_content" with
            | .error e => (calls, .error e)
            | .ok text_content => (calls, .ok (text_content.or (.str "")))
        else (calls, .ok (.str ""))
  else ([], .ok (.str ""))

/-- The prompt of the `medical` branch. -/
def medicalPrompt (language : String) (extractedText : JVal) : String :=
  "\nYou are an expert medical document analyst. Analyze this medical document for a common person and provide:\n" ++
  "1. A clear, simple summary in " ++ languageName language ++ ".\n" ++
  "2. 3-5 key bullet points highlighting the most important information.\n" ++
  "3. An estimated severity percentage with a brief explanation (e.g., \"Severity: 75% - High. This indicates a condition that requires prompt medical attention.\").\n" ++
  "4. Practical, safe, and clear next steps for the user. IMPORTANT: Always advise the user to consult a qualified medical professional and that this is not a substitute for professional medical advice.\n" ++
  "\nDocument content:\n" ++ extractedText.toStr ++ "\n" ++
  "\nMake the language extremely simple and accessible. Avoid technical jargon."

/-- The response schema of the `medical` branch. -/
def medicalSchema : JVal :=
  .obj [("type", .str "object"),
        ("properties", .obj [
          ("simplified_summary", .obj [("type", .str "string")]),
          ("key_points", .obj [("type", .str "array"), ("items", .obj [("type", .str "string")])]),
          ("medical_severity", .obj [("type", .str "string"),
            ("description", .str "The estimated severity, including percentage and a short description.")]),
          ("suggested_next_steps", .obj [("type", .str "string"),
            ("description", .str "Clear next steps for the user, including consulting a doctor.")])])]

/-- The prompt of the `legal` branch. -/
def legalPrompt (language : String) (extractedText : JVal) : String :=
  "\nYou are an expert legal document analyst. Analyze this legal document for a common person and provide:\n" ++
  "1. A clear, simple summary in " ++ languageName language ++ ".\n" ++
  "2. 3-5 key bullet points highlighting the most important information.\n" ++
  "3. A summary of potentially applicable rights, laws, or legal sections relevant to the document's content.\n" ++
  "4. Practical next steps the user might consider. IMPORTANT: Always include a disclaimer that you are an AI assistant, not a lawyer, and the user should consult with a qualified legal professional for advice.\n" ++
  "\nDocument content:\n" ++ extractedText.toStr ++ "\n" ++
  "\nMake the language extremely simple and accessible. Avoid technical jargon."

/-- The response schema of the `legal` branch. -/
def legalSchema : JVal :=
  .obj [("type", .str "object"),
        ("properties", .obj [
          ("simplified_summary", .obj [("type", .str "string")]),
          ("key_points", .obj [("type", .str "array"), ("items", .obj [("type", .str "string")])]),
          ("legal_rights_summary", .obj [("type", .str "string"),
            ("description", .str "A summary of relevant rights and laws.")]),
          ("suggested_next_steps", .obj [("type", .str "string"),
            ("description", .str "Suggested next steps, including consulting a lawyer.")])])]

/-- The prompt of the generic branch. -/
def genericPrompt (category language : String) (extractedText : JVal) : String :=
  "\nYou are an expert document simplifier. Analyze this " ++ category ++ " document and provide:\n" ++
  "1. A clear, simple summary in " ++ languageName language ++ "\n" ++
  "2. 3-5 key bullet points highlighting the most important information\n" ++
  "\nDocument content:\n" ++ extractedText.toStr ++ "\n" ++
  "\nMake the language simple and accessible for common people. Avoid technical jargon."

/-- The response schema of the generic branch. -/
def genericSchema : JVal :=
  .obj [("type", .str "object"),
        ("properties", .obj [
          ("simplified_summary", .obj [("type", .str "string")]),
          ("key_points", .obj [("type", .str "array"), ("items", .obj [("type", .str "string")])])])]

/-- The branch on `category` (lines 211-279): the values of `prompt` and
`response_json_schema`. -/
def selectPrompt (category language : String) (extractedText : JVal) : String × JVal :=
  if category = "medical" then (medicalPrompt language extractedText, medicalSchema)
  else if category = "legal" then (legalPrompt language extractedText, legalSchema)
  else (genericPrompt category language extractedText, genericSchema)

/-- The object literal `documentData` (lines 289-302); reading a property of a
`null` or `undefined` response throws. -/
def buildDocumentData (file : JFile) (category language : String)
    (file_url extractedText aiResponse : JVal) : Except String DocumentData :=
  if aiResponse.isNullish then .error "TypeError"
  else
    let field (key : String) : JVal :=
      match aiResponse.getProp key with
      | .ok v => v
      | .error _ => .undefined
    .ok { title := file.name
          category := category
          file_url := file_url
          original_text := extractedText
          simplified_summary := field "simplified_summary"
          key_points := (field "key_points").or (.arr [])
          language := language
          processing_status := "completed"
          file_type := file.type
          medical_severity := (field "medical_severity").or .null
          legal_rights_summary := (field "legal_rights_summary").or .null
          suggested_next_steps := (field "suggested_next_steps").or .null }

/-- The outcome of the `try` block of `processDocument`. -/
structure TryResult where
  state : UploadState
  calls : List UploadCall
  thrown : Bool

/-- The `try` block of `processDocument` (lines 184-311), entered with the
selected file. -/
def processTry (file : JFile) (s : UploadState) (g : UploadResponses) : TryResult :=
  let s20 := { s with progress := 20 }
  let c1 := [UploadCall.uploadFile file]
  match g.uploadFile with
  | .error _ => ⟨s20, c1, true⟩
  | .ok uploaded =>
    match uploaded.getProp "file_url" with
    | .error _ => ⟨s20, c1, true⟩
    | .ok file_url =>
      let s40 := { s20 with progress := 40 }
      match extractStep file file_url g with
      | (c2, .error _) => ⟨s40, c1 ++ c2, true⟩
      | (c2, .ok extractedText) =>
        let s60 := { s40 with progress := 60 }
        let ps := selectPrompt s.category s.language extractedText
        let c3 := c1 ++ c2 ++ [UploadCall.invokeLLM ps.1 ps.2]
        match g.invokeLLM with
        | .error _ => ⟨s60, c3, true⟩
        | .ok aiResponse =>
          let s80 := { s60 with progress := 80 }
          match buildDocumentData file s.category s.language file_url extractedText aiResponse with
          | .error _ => ⟨s80, c3, true⟩
          | .ok documentData =>
            let c4 := c3 ++ [UploadCall.documentCreate documentData]
            match g.documentCreate with
            | .error _ => ⟨s80, c4, true⟩
            | .ok _ => ⟨{ s80 with progress := 100 }, c4, false⟩

/-- One completed run of `processDocument`: the final state, the service calls
made in order, and the page the run schedules a navigation to. -/
structure UploadRun where
  state : UploadState
  calls : List UploadCall
  navigateTo : Option String

/-- The handler `processDocument` (lines 174-319). -/
def processDocument (s : UploadState) (g : UploadResponses) : UploadRun :=
  match s.selectedFile with
  | none => ⟨{ s with error := "Please select a file and category" }, [], none⟩
  | some file =>
    if s.category = "" then
      ⟨{ s with error := "Please select a file and category" }, [], none⟩
    else
      let s0 := { s with isProcessing := true, progress := 10, error := "" }
      let r := processTry file s0 g
      let s1 := if r.thrown then
          { r.state with error := "Failed to process document. Please try again." }
        else r.state
      ⟨{ s1 with isProcessing := false }, r.calls, if r.thrown then none else some "Dashboard"⟩

/-- A user or browser event on the `Upload` page: the `category` URL parameter
read on mount, a click on a category tile or a language option, drag and drop,
the file picker, the camera dialog (opening and closing it run the
`showCamera` effect and its cleanup) and the Process button. -/
inductive UploadEvent where
  | categoryParam (param : Option String)
  | clickCategory (i : Fin 6)
  | selectLanguage (i : Fin 5)
  | drag (type : String)
  | drop (files : List JFile)
  | fileSelect (file : Option JFile)
  | openCamera
  | closeCamera
  | cameraStarted (granted : Bool)
  | capture (videoMounted : Bool) (blobSize now : Nat)
  | process (g : UploadResponses)

/-- The state after one event. -/
def UploadState.step (s : UploadState) : UploadEvent → UploadState
  | .categoryParam param => applyCategoryParam s param
  | .clickCategory i => { s with category := CATEGORIES.getD i.val "" }
  | .selectLanguage i => { s with language := LANGUAGES.getD i.val "" }
  | .drag type => handleDrag s type
  | .drop files => handleDrop s files
  | .fileSelect file => handleFileSelect s file
  | .openCamera => if s.showCamera then s else stopCamera { s with showCamera := true }
  | .closeCamera => if s.showCamera then stopCamera { s with showCamera := false } else s
  | .cameraStarted granted => startCamera s granted
  | .capture videoMounted blobSize now => capturePhoto s videoMounted blobSize now
  | .process g => (processDocument s g).state

/-- The state reached from `s` by a sequence of events. -/
def UploadState.run (s : UploadState) (events : List UploadEvent) : UploadState :=
  events.foldl UploadState.step s

/-- The property names a response schema asks for (the keys of its
`properties` object). -/
def schemaProperties (schema : JVal) : List String :=
  match schema.getProp "properties" with
  | .ok (.obj props) => props.map Prod.fst
  | _ => []

/-- A response stays within a schema when each of its properties is one the
schema asks for; a value that is not an object has no property of its own. -/
def withinSchema (response schema : JVal) : Bool :=
  match response with
  | .obj fields => fields.all fun kv => (schemaProperties schema).contains kv.1
  | _ => true

/-- A selected file, if any, has an accepted MIME type. -/
def TypeOk (s : UploadState) : Prop :=
  ∀ file, s.selectedFile = some file → file.type ∈ validTypes

/-- The chosen category is empty or one of the six of `CATEGORIES`. -/
def CategoryOk (s : UploadState) : Prop :=
  s.category = "" ∨ s.category ∈ CATEGORIES

/-! ### Sample inputs -/

/-- A 2 MB PDF. -/
def samplePdf : JFile :=
  { name := "report.pdf", type := "application/pdf", size := 2097152 }

/-- The page with `samplePdf` selected and the given category chosen. -/
def sampleState (category : String) : UploadState :=
  { UploadState.init with selectedFile := some samplePdf, category := category }

/-- An upload that resolves with a file URL. -/
def sampleUploaded : JVal :=
  .obj [("file_url", .str "https://files.example/report.pdf")]

/-- A successful extraction. -/
def sampleExtracted : JVal :=
  .obj [("status", .str "success"),
        ("output", .obj [("text_content", .str "Patient has mild fever...")])]

/-- Services that all resolve, the model answering with `aiResponse`. -/
def sampleResponses (aiResponse : JVal) : UploadResponses :=
  { uploadFile := .ok sampleUploaded, extractData := .ok sampleExtracted,
    invokeLLM := .ok aiResponse, documentCreate := .ok () }

/-- A model answer that carries a severity although none was asked for. -/
def severityAnswer : JVal :=
  .obj [("simplified_summary", .str "A notice."), ("medical_severity", .str "90% - High")]

/-- The record stored for `severityAnswer` under category `legal`. -/
def severityRecord : DocumentData :=
  { title := "report.pdf", category := "legal",
    file_url := .str "https://files.example/report.pdf",
    original_text := .str "Patient has mild fever...",
    simplified_summary := .str "A notice.", key_points := .arr [],
    language := "english", processing_status := "completed",
    file_type := "application/pdf", medical_severity := .str "90% - High",
    legal_rights_summary := .null, suggested_next_steps := .null }

/-- The model answer of the worked example of the specification. -/
def medicalAnswer : JVal :=
  .obj [("simplified_summary", .str "The patient has a mild fever."),
        ("key_points", .arr [.str "Mild fever"]),
        ("medical_severity", .str "20% - Low"),
        ("suggested_next_steps", .str "Rest and consult a doctor if fever persists.")]

/-- Services whose upload is rejected. -/
def uploadRejected : UploadResponses :=
  { sampleResponses medicalAnswer with uploadFile := .error "network error" }

/-- Services whose extraction resolves with a `failure` status. -/
def extractionFailed : UploadResponses :=
  { sampleResponses medicalAnswer with extractData := .ok (.obj [("status", .str "failure")]) }

/-- Services whose extraction call is rejected. -/
def extractionRejected : UploadResponses :=
  { sampleResponses medicalAnswer with extractData := .error "extraction unavailable" }

/-- The record stored for `medicalAnswer` under category `medical`. -/
def medicalRecord : DocumentData :=
  { title := "report.pdf", category := "medical",
    file_url := .str "https://files.example/report.pdf",
    original_text := .str "Patient has mild fever...",
    simplified_summary := .str "The patient has a mild fever.",
    key_points := .arr [.str "Mild fever"],
    language := "english", processing_status := "completed",
    file_type := "application/pdf", medical_severity := .str "20% - Low",
    legal_rights_summary := .null,
    suggested_next_steps := .str "Rest and consult a doctor if fever persists." }

/-- Opening the camera, capturing a frame whose JPEG encoding takes 10485761
bytes, then choosing the category `medical`. -/
def cameraSession : List UploadEvent :=
  [.openCamera, .cameraStarted true, .capture true 10485761 0, .clickCategory 1]

/-- The file built by `capturePhoto` in `cameraSession`. -/
def oversizedPhoto : JFile :=
  { name := "document-0.jpg", type := "image/jpeg", size := 10485761 }

/-- A model answer whose severity and next steps are present but empty. -/
def emptySeverityAnswer : JVal :=
  .obj [("simplified_summary", .str "A short report."),
        ("key_points", .arr [.str "Mild fever"]),
        ("medical_severity", .str ""),
        ("suggested_next_steps", .str "")]

/-- A model answer with no property at all. -/
def emptyAnswer : JVal := .obj []

end Upload

/-! ## Chat page: the turn `sendMessage` (`src/Pages/Chat.js`) -/

namespace Chat

/-- The table `languageMap` of `Chat.js`: language, name, speech code. -/
def languageMap : List (String × String × String) :=
  [("english", "English", "en-US"), ("hindi", "Hindi", "hi-IN"), ("tamil", "Tamil", "ta-IN"),
   ("bengali", "Bengali", "bn-IN"), ("malayalam", "Malayalam", "ml-IN")]

/-- The expression `languageMap[language]?.name || 'the specified language'`:
`languageMap` is a plain object, so a key it does not own is looked up on
`Object.prototype`, where it may find a function, whose `name` is then used. -/
def languageName (language : String) : String :=
  match languageMap.lookup language with
  | some entry => entry.1
  | none =>
    match objectPrototypeFunctions.lookup language with
    | some name => name
    | none => "the specified language"

/-- A transcript entry. -/
structure Message where
  role : String
  content : JVal
  timestamp : String

/-- A `Document` record as the chat page reads it. -/
structure Doc where
  id : String
  title : String
  category : String
  processing_status : String
  original_text : JVal
  simplified_summary : JVal

/-- A stored `Conversation` record; `messages` is `none` when the record has
no message list. -/
structure Conversation where
  id : String
  document_id : String
  messages : Option (List Message)
  language : String

/-- The object `conversationData` written to the Conversation store. -/
structure ConversationData where
  document_id : String
  messages : List Message
  language : String

/-- The `useState` cells of the `Chat` component that `sendMessage` reads or
writes. -/
structure ChatState where
  documents : List Doc
  selectedDocument : Option Doc
  conversation : Option Conversation
  messages : List Message
  inputMessage : String
  isLoading : Bool
  language : String
  speakingMessageId : Option String

/-- The state of a freshly mounted `Chat` component. -/
def ChatState.init : ChatState :=
  { documents := [], selectedDocument := none, conversation := none, messages := [],
    inputMessage := "", isLoading := false, language := "english", speakingMessageId := none }

/-- A call made by `sendMessage` to an external service, with its arguments. -/
inductive ChatCall where
  | invokeLLM (prompt : String)
  | conversationUpdate (id : String) (data : ConversationData)
  | conversationCreate (data : ConversationData)

/-- What one `sendMessage` call meets outside the component: whether
`window.speechSynthesis` exists, what each awaited call resolves to (`.error`
is a rejected promise) and the three values of `new Date().toISOString()`. -/
structure TurnEnv where
  speechSynthesis : Bool
  invokeLLM : Except String JVal
  conversationUpdate : Except String Unit
  conversationCreate : Except String Conversation
  userTime : String
  assistantTime : String
  errorTime : String

/-- The line `role: content` of one prior message. -/
def messageLine (m : Message) : String :=
  m.role ++ ": " ++ m.content.toStr

/-- The template literal `prompt` of `sendMessage` (lines 235-249). -/
def chatPrompt (doc : Doc) (messages : List Message) (userMessage : Message)
    (language : String) : String :=
  "\nYou are an expert document analyst helping users understand their documents. \n" ++
  "The user has uploaded a " ++ doc.category ++ " document titled \"" ++ doc.title ++ "\".\n" ++
  "\nDocument content:\n" ++ (doc.original_text.or doc.simplified_summary).toStr ++ "\n" ++
  "\nPrevious conversation:\n" ++ "\n".intercalate (messages.map messageLine) ++ "\n" ++
  "\nUser question: " ++ userMessage.content.toStr ++ "\n" ++
  "\nPlease provide a helpful, accurate response in " ++ languageName language ++ ". \n" ++
  "Keep the language simple and avoid technical jargon. If the question is not related to the document, politely redirect them back to the document content.\n"

/-- The content of the fallback message of the `catch` block. -/
def fallbackText : String :=
  "I apologize, but I'm having trouble processing your message right now. Please try again."

/-- One completed `sendMessage` call: the final state and the service calls
made, in order. -/
structure ChatRun where
  state : ChatState
  calls : List ChatCall

/-- The `catch` block (lines 276-284) followed by `setIsLoading(false)`. -/
def catchBlock (s : ChatState) (e : TurnEnv) (calls : List ChatCall) : ChatRun :=
  let errorMessage : Message :=
    { role := "assistant", content := .str fallbackText, timestamp := e.errorTime }
  ⟨{ s with messages := s.messages ++ [errorMessage], isLoading := false }, calls⟩

/-- The handler `sendMessage` (lines 214-287). -/
def sendMessage (s : ChatState) (e : TurnEnv) : ChatRun :=
  match s.selectedDocument with
  | none => ⟨s, []⟩
  | some doc =>
    if jsTrim s.inputMessage = "" ∨ s.isLoading then ⟨s, []⟩
    else
      let sp := if e.speechSynthesis then { s with speakingMessageId := none } else s
      let userMessage : Message :=
        { role := "user", content := .str (jsTrim s.inputMessage), timestamp := e.userTime }
      let s1 := { sp with messages := s.messages ++ [userMessage], inputMessage := "",
                          isLoading := true }
      let calls := [ChatCall.invokeLLM (chatPrompt doc s.messages userMessage s.language)]
      match e.invokeLLM with
      | .error _ => catchBlock s1 e calls
      | .ok aiResponse =>
        let assistantMessage : Message :=
          { role := "assistant", content := aiResponse, timestamp := e.assistantTime }
        let updatedMessages := s.messages ++ [userMessage, assistantMessage]
        let s2 := { s1 with messages := updatedMessages }
        let conversationData : ConversationData :=
          { document_id := doc.id, messages := updatedMessages, language := s.language }
        match s.conversation with
        | some conversation =>
          let calls := calls ++ [ChatCall.conversationUpdate conversation.id conversationData]
          match e.conversationUpdate with
          | .error _ => catchBlock s2 e calls
          | .ok _ => ⟨{ s2 with isLoading := false }, calls⟩
        | none =>
          let calls := calls ++ [ChatCall.conversationCreate conversationData]
          match e.conversationCreate with
          | .error _ => catchBlock s2 e calls
          | .ok newConversation =>
            ⟨{ s2 with conversation := some newConversation, isLoading := false }, calls⟩

/-- The transcript after a sequence of completed `sendMessage` calls, the
input box being filled with `input` before each call. -/
def runTurns (s : ChatState) : List (String × TurnEnv) → ChatState
  | [] => s
  | (input, e) :: rest => runTurns (sendMessage { s with inputMessage := input } e).state rest

/-- The service calls made over a sequence of completed `sendMessage` calls,
in order, the input box being filled with `input` before each call. -/
def runTurnsCalls (s : ChatState) : List (String × TurnEnv) → List ChatCall
  | [] => []
  | (input, e) :: rest =>
    (sendMessage { s with inputMessage := input } e).calls ++
      runTurnsCalls (sendMessage { s with inputMessage := input } e).state rest

/-- The service a call goes to. -/
def ChatCall.kind : ChatCall → String
  | .invokeLLM _ => "InvokeLLM"
  | .conversationUpdate _ _ => "Conversation.update"
  | .conversationCreate _ => "Conversation.create"

/-- The input contains nothing but white space (or nothing at all). -/
def isBlank (input : String) : Prop :=
  ∀ c ∈ input.toList, jsIsWhitespace c = true

/-! ### Loading documents and conversations -/

/-- What the Conversation store answers to
`Conversation.filter({ document_id }, '-created_date', 1)`, as a function of
the document id; `.error` is a rejected promise. -/
abbrev ConversationLookup := String → Except String (List Conversation)

/-- The function `loadInitialData` (lines 170-184), on what `Document.list`
resolves to. -/
def loadInitialData (s : ChatState) (docsData : Except String (List Doc)) : ChatState :=
  match docsData with
  | .error _ => s
  | .ok docs =>
    { s with documents := docs.filter fun doc => doc.processing_status = "completed" }

/-- The function `loadConversation` (lines 186-200); the empty string stands
for a record without `language`. -/
def loadConversation (s : ChatState) (documentId : String) (store : ConversationLookup) :
    ChatState :=
  match store documentId with
  | .error _ => s
  | .ok [] => { s with conversation := none, messages := [] }
  | .ok (first :: _) =>
    { s with conversation := some first,
             messages := first.messages.getD [],
             language := if first.language = "" then "english" else first.language }

/-- The handler `handleDocumentSelect` (lines 206-212), run to the completion of
its `loadConversation` call. -/
def handleDocumentSelect (s : ChatState) (documentId : String) (store : ConversationLookup) :
    ChatState :=
  match s.documents.find? fun d => d.id = documentId with
  | some doc => loadConversation { s with selectedDocument := some doc } documentId store
  | none => s

/-- The effect on `documents` (lines 146-157) reading the `document` URL
parameter. -/
def applyDocumentParam (s : ChatState) (documentParam : Option String)
    (store : ConversationLookup) : ChatState :=
  match documentParam with
  | none => s
  | some documentId =>
    if documentId ≠ "" ∧ s.documents.length > 0 then
      match s.documents.find? fun d => d.id = documentId with
      | some doc => loadConversation { s with selectedDocument := some doc } documentId store
      | none => s
    else s

/-- The `value`s of the `languages` table of the language selector, in
order. -/
def languages : List String :=
  ["english", "hindi", "tamil", "bengali", "malayalam"]

/-- A user or browser event on the `Chat` page: the document list arriving,
the `document` URL parameter being applied, a click on a listed document, a
choice in the language selector, typing, and sending. -/
inductive ChatEvent where
  | initialData (docsData : Except String (List Doc))
  | documentParam (param : Option String) (store : ConversationLookup)
  | clickDocument (documentId : String) (store : ConversationLookup)
  | selectLanguage (i : Fin 5)
  | typeInput (text : String)
  | send (e : TurnEnv)

/-- The state after one event. -/
def ChatState.step (s : ChatState) : ChatEvent → ChatState
  | .initialData docsData => loadInitialData s docsData
  | .documentParam param store => applyDocumentParam s param store
  | .clickDocument documentId store => handleDocumentSelect s documentId store
  | .selectLanguage i => { s with language := languages.getD i.val "" }
  | .typeInput text => { s with inputMessage := text }
  | .send e => (sendMessage s e).state

/-- The state reached from `s` by a sequence of events. -/
def ChatState.run (s : ChatState) (events : List ChatEvent) : ChatState :=
  events.foldl ChatState.step s

/-- The message list a call writes to the Conversation store, if it is a store
write. -/
def ChatCall.writtenMessages : ChatCall → Option (List Message)
  | .invokeLLM _ => none
  | .conversationUpdate _ data => some data.messages
  | .conversationCreate data => some data.messages

/-- Every listed document, and the selected document if any, has
`processing_status` `completed`. -/
def CompletedOnly (s : ChatState) : Prop :=
  (∀ doc ∈ s.documents, doc.processing_status = "completed") ∧
    ∀ doc, s.selectedDocument = some doc → doc.processing_status = "completed"

/-! ### Sample inputs -/

/-- A completed medical document. -/
def sampleDoc : Doc :=
  { id := "doc-1", title := "report.pdf", category := "medical",
    processing_status := "completed", original_text := .str "Patient has mild fever...",
    simplified_summary := .str "The patient has a mild fever." }

/-- The chat page with `sampleDoc` selected, no conversation yet and a
question typed in. -/
def freshChat : ChatState :=
  { ChatState.init with documents := [sampleDoc], selectedDocument := some sampleDoc,
                        inputMessage := "What does this report say?" }

/-- A turn whose model call resolves and whose store write is rejected. -/
def storeRejected : TurnEnv :=
  { speechSynthesis := true, invokeLLM := .ok (.str "It reports a mild fever."),
    conversationUpdate := .error "store unavailable",
    conversationCreate := .error "store unavailable",
    userTime := "2025-01-01T10:00:00.000Z", assistantTime := "2025-01-01T10:00:02.000Z",
    errorTime := "2025-01-01T10:00:03.000Z" }

/-- The record the store returns for a created conversation. -/
def sampleConversation : Conversation :=
  { id := "conv-1", document_id := "doc-1", messages := none, language := "english" }

/-- A turn whose model call and store write both resolve. -/
def allResolved : TurnEnv :=
  { speechSynthesis := true, invokeLLM := .ok (.str "Rest and drink water."),
    conversationUpdate := .ok (), conversationCreate := .ok sampleConversation,
    userTime := "2025-01-01T10:05:00.000Z", assistantTime := "2025-01-01T10:05:02.000Z",
    errorTime := "2025-01-01T10:05:03.000Z" }

/-- A turn whose model call is rejected. -/
def modelRejected : TurnEnv :=
  { allResolved with invokeLLM := .error "model unavailable" }

/-- The chat page of `freshChat` with white space typed around the question. -/
def paddedChat : ChatState :=
  { freshChat with inputMessage := "  What does this report say?\n" }

/-- The chat page of `freshChat` while a turn is in flight. -/
def busyChat : ChatState :=
  { freshChat with isLoading := true }

/-- The chat page of `freshChat` with only white space typed in. -/
def blankChat : ChatState :=
  { freshChat with inputMessage := " \t\n" }

/-- A second completed document. -/
def otherDoc : Doc :=
  { id := "doc-2", title := "lease.pdf", category := "legal",
    processing_status := "completed", original_text := .str "The tenant shall...",
    simplified_summary := .str "A lease agreement." }

/-- A document still being processed. -/
def pendingDoc : Doc :=
  { id := "doc-3", title := "scan.png", category := "medical",
    processing_status := "processing", original_text := .str "",
    simplified_summary := .undefined }

/-- A stored exchange about `sampleDoc`. -/
def storedMessages : List Message :=
  [{ role := "user", content := .str "Is it serious?", timestamp := "2024-12-31T09:00:00.000Z" },
   { role := "assistant", content := .str "No, it is mild.",
     timestamp := "2024-12-31T09:00:02.000Z" }]

/-- The stored conversation of `sampleDoc`. -/
def storedConversation : Conversation :=
  { id := "conv-1", document_id := "doc-1", messages := some storedMessages,
    language := "hindi" }

/-- The chat page with `sampleDoc` selected and its stored conversation
loaded. -/
def loadedChat : ChatState :=
  { ChatState.init with documents := [sampleDoc, otherDoc], selectedDocument := some sampleDoc,
                        conversation := some storedConversation, messages := storedMessages,
                        language := "hindi" }

/-- A store whose lookup is rejected. -/
def lookupRejected : ConversationLookup :=
  fun _ => .error "store unavailable"

/-- A store that holds `storedConversation` for `doc-1` and nothing else. -/
def sampleStore : ConversationLookup :=
  fun documentId => if documentId = "doc-1" then .ok [storedConversation] else .ok []

/-- A store whose conversation for `doc-1` carries the language
`constructor`. -/
def constructorStore : ConversationLookup :=
  fun _ =>
    .ok [{ id := "conv-9", document_id := "doc-1", messages := none,
           language := "constructor" }]

/-- The chat page after the document list arrived, `doc-1` was clicked with
`constructorStore` answering, and a question was typed. -/
def constructorChat : ChatState :=
  ChatState.init.run
    [.initialData (.ok [sampleDoc]), .clickDocument "doc-1" constructorStore,
     .typeInput "What is this?"]

end Chat

/-! ## Library page: `filterDocuments` (`src/Pages/Library.js`) -/

namespace Library

/-- The method `String.prototype.includes`. -/
def jsIncludes (s query : String) : Bool :=
  s.toList.tails.any fun t => query.toList.isPrefixOf t

/-- A `Document` record as the library page reads it; `simplified_summary` is
`none` when the record has no summary. -/
structure Doc where
  title : String
  simplified_summary : Option String
  category : String
  processing_status : String
  deriving DecidableEq, Repr

/-- The `useState` cells of the `Library` component that `filterDocuments`
reads or writes. -/
structure LibraryState where
  documents : List Doc
  filteredDocuments : List Doc
  searchQuery : String
  selectedCategory : String
  selectedStatus : String
  deriving DecidableEq, Repr

/-- The state of a freshly mounted `Library` component. -/
def LibraryState.init : LibraryState :=
  { documents := [], filteredDocuments := [], searchQuery := "",
    selectedCategory := "all", selectedStatus := "all" }

/-- The callback of the search filter (lines 58-61); `toLowerCase` is the
built-in `String.prototype.toLowerCase`. -/
def matchesQuery (toLowerCase : String → String) (searchQuery : String) (doc : Doc) : Bool :=
  jsIncludes (toLowerCase doc.title) (toLowerCase searchQuery) ||
    (match doc.simplified_summary with
      | some summary => jsIncludes (toLowerCase summary) (toLowerCase searchQuery)
      | none => false)

/-- The function `filterDocuments` (lines 54-73). -/
def filterDocuments (toLowerCase : String → String) (s : LibraryState) : LibraryState :=
  let filtered := s.documents
  let filtered :=
    if s.searchQuery ≠ "" then filtered.filter (matchesQuery toLowerCase s.searchQuery)
    else filtered
  let filtered :=
    if s.selectedCategory ≠ "all" then
      filtered.filter fun doc => doc.category = s.selectedCategory
    else filtered
  let filtered :=
    if s.selectedStatus ≠ "all" then
      filtered.filter fun doc => doc.processing_status = s.selectedStatus
    else filtered
  { s with filteredDocuments := filtered }

/-- The filters as the specification words them, in one pass: a document is
kept when the query is empty or its lower-cased title or lower-cased summary
contains the lower-cased query, the category selector is `all` or equals its
category, and the status selector is `all` or equals its status. -/
def satisfiesFilters (toLowerCase : String → String) (s : LibraryState) (doc : Doc) : Bool :=
  (s.searchQuery == "" ||
      jsIncludes (toLowerCase doc.title) (toLowerCase s.searchQuery) ||
      doc.simplified_summary.any fun summary =>
        jsIncludes (toLowerCase summary) (toLowerCase s.searchQuery)) &&
    (s.selectedCategory == "all" || doc.category == s.selectedCategory) &&
    (s.selectedStatus == "all" || doc.processing_status == s.selectedStatus)

/-- Lower-casing of ASCII letters, standing in for `toLowerCase` on sample
inputs. -/
def asciiLower (s : String) : String :=
  String.mk (s.toList.map Char.toLower)

/-- Three library documents. -/
def sampleDocuments : List Doc :=
  [{ title := "Report.pdf", simplified_summary := some "Mild FEVER, rest advised.",
     category := "medical", processing_status := "completed" },
   { title := "lease.pdf", simplified_summary := none,
     category := "legal", processing_status := "failed" },
   { title := "Fever chart.png", simplified_summary := some "A chart.",
     category := "medical", processing_status := "completed" }]

/-- The library with `sampleDocuments` loaded and the query `fever` typed in,
the category selector on `medical`. -/
def sampleLibrary : LibraryState :=
  { LibraryState.init with documents := sampleDocuments, searchQuery := "fever",
                           selectedCategory := "medical" }

/-- The library with `sampleDocuments` loaded and no filter active. -/
def unfilteredLibrary : LibraryState :=
  { LibraryState.init with documents := sampleDocuments }

end Library

/-! ## Properties of the JavaScript values -/

set_option maxRecDepth 100000 in
/-- String conversion of numbers at a few values: plain digits, the shortest
digits padded with zeros above `2 ^ 53`, exponent form from `1e21` on. -/
theorem jsNumberToString_examples :
    jsNumberToString 42 = "42" ∧ jsNumberToString (-7) = "-7" ∧
      jsNumberToString 9007199254740993 = "9007199254740992" ∧
      jsNumberToString 12345678901234567890 = "12345678901234567000" ∧
      jsNumberToString 999999999999999999999 = "1e+21" ∧
      jsNumberToString 1000000000000000000000 = "1e+21" ∧
      jsNumberToString 123456789012345678901234 = "1.2345678901234569e+23" := by
  decide

/-! ## Properties of the upload page -/

namespace Upload

/-- The function `validateFile` never touches the selected file. -/
theorem validateFile_selectedFile (s : UploadState) (file : JFile) :
    (validateFile s file).2.selectedFile = s.selectedFile := by
  unfold validateFile
  split
  · rfl
  · split <;> rfl

/-- Acceptance by `validateFile` bounds the type and the size. -/
theorem validateFile_accepts (s : UploadState) (file : JFile)
    (h : (validateFile s file).1 = true) :
    file.type ∈ validTypes ∧ file.size ≤ maxSize := by
  unfold validateFile at h
  split at h
  · simp at h
  · split at h
    · simp at h
    · rename_i h1 h2
      simp at h1
      exact ⟨h1, by omega⟩

/-- The extraction step calls the extraction service at most once, with the
uploaded file's URL and the fixed schema. -/
theorem extractStep_calls (file : JFile) (file_url : JVal) (g : UploadResponses) :
    (extractStep file file_url g).1 = [] ∨
      (extractStep file file_url g).1 = [UploadCall.extractData file_url extractSchema] := by
  unfold extractStep
  split
  · right
    cases g.extractData with
    | error e => rfl
    | ok r =>
      simp only
      cases r.getProp "status" with
      | error e => rfl
      | ok status =>
        simp only
        split
        · cases r.getProp "output" with
          | error e => rfl
          | ok output =>
            simp only
            cases output.getProp "text_content" <;> rfl
        · rfl
  · left; rfl

/-- No `Document.create` call is made inside the extraction step. -/
theorem documentCreate_not_mem_extractStep (file : JFile) (file_url : JVal)
    (g : UploadResponses) (d : DocumentData) :
    UploadCall.documentCreate d ∉ (extractStep file file_url g).1 := by
  rcases extractStep_calls file file_url g with h | h <;> simp [h]

/-- Shape of a run that reaches `Document.create`: every earlier step
resolved, and the calls are upload, extraction (if any), model, create. -/
theorem processDocument_create_inv (s : UploadState) (g : UploadResponses) (d : DocumentData)
    (h : UploadCall.documentCreate d ∈ (processDocument s g).calls) :
    ∃ file uploaded file_url extractedText aiResponse,
      s.selectedFile = some file ∧ s.category ≠ "" ∧
      g.uploadFile = .ok uploaded ∧ uploaded.getProp "file_url" = .ok file_url ∧
      (extractStep file file_url g).2 = .ok extractedText ∧
      g.invokeLLM = .ok aiResponse ∧
      buildDocumentData file s.category s.language file_url extractedText aiResponse = .ok d ∧
      (processDocument s g).calls =
        UploadCall.uploadFile file :: ((extractStep file file_url g).1 ++
          [UploadCall.invokeLLM (selectPrompt s.category s.language extractedText).1
              (selectPrompt s.category s.language extractedText).2,
            UploadCall.documentCreate d]) := by
  cases hf : s.selectedFile with
  | none => simp [processDocument, hf] at h
  | some file =>
    by_cases hc : s.category = ""
    · simp [processDocument, hf, hc] at h
    · cases hu : g.uploadFile with
      | error e => simp [processDocument, processTry, hf, hc, hu] at h
      | ok uploaded =>
        cases hp : uploaded.getProp "file_url" with
        | error e => simp [processDocument, processTry, hf, hc, hu, hp] at h
        | ok file_url =>
          have hno := documentCreate_not_mem_extractStep file file_url g d
          rcases hx : extractStep file file_url g with ⟨c2, e | extractedText⟩
          · rw [hx] at hno
            simp [processDocument, processTry, hf, hc, hu, hp, hx] at h
            exact absurd h hno
          · rw [hx] at hno
            cases hi : g.invokeLLM with
            | error e =>
              simp [processDocument, processTry, hf, hc, hu, hp, hx, hi] at h
              exact absurd h hno
            | ok aiResponse =>
              cases hb : buildDocumentData file s.category s.language file_url
                  extractedText aiResponse with
              | error e =>
                simp [processDocument, processTry, hf, hc, hu, hp, hx, hi, hb] at h
                exact absurd h hno
              | ok d2 =>
                have hd : d = d2 := by
                  cases hdc : g.documentCreate <;>
                    simp [processDocument, processTry, hf, hc, hu, hp, hx, hi, hb, hdc] at h <;>
                    rcases h with h | h
                  · exact absurd h hno
                  · exact h
                  · exact absurd h hno
                  · exact h
                subst hd
                refine ⟨file, uploaded, file_url, extractedText, aiResponse, rfl, hc, rfl, hp,
                  by rw [hx], rfl, hb, ?_⟩
                cases hdc : g.documentCreate <;>
                  simp [processDocument, processTry, hf, hc, hu, hp, hx, hi, hb, hdc]

/-- No model call is made inside the extraction step. -/
theorem invokeLLM_not_mem_extractStep (file : JFile) (file_url : JVal)
    (g : UploadResponses) (prompt : String) (schema : JVal) :
    UploadCall.invokeLLM prompt schema ∉ (extractStep file file_url g).1 := by
  rcases extractStep_calls file file_url g with h | h <;> simp [h]

/-- A property outside the keys allowed for an object reads as absent. -/
theorem lookup_eq_none_of_all (fields : List (String × JVal)) (keys : List String)
    (key : String) (hall : (fields.all fun kv => keys.contains kv.1) = true)
    (hkey : key ∉ keys) : fields.lookup key = none := by
  induction fields with
  | nil => rfl
  | cons kv rest ih =>
    obtain ⟨k, v⟩ := kv
    simp only [List.all_cons, Bool.and_eq_true] at hall
    have hk : k ∈ keys := by simpa using hall.1
    have hne : (key == k) = false := by
      simp only [beq_eq_false_iff_ne, ne_eq]
      intro h
      exact hkey (h ▸ hk)
    simp only [List.lookup, hne]
    exact ih hall.2

/-- A response within a schema that does not ask for `key` has no `key`, so
that `response.key || null` is `null`. -/
theorem field_or_null_of_withinSchema (response schema : JVal) (key : String)
    (hin : withinSchema response schema = true) (hkey : key ∉ schemaProperties schema)
    (v : JVal) (hv : response.getProp key = .ok v) : v.or .null = .null := by
  cases response with
  | obj fields =>
    have := lookup_eq_none_of_all fields _ key (by simpa [withinSchema] using hin) hkey
    simp [JVal.getProp, this] at hv
    subst hv
    rfl
  | undefined => simp [JVal.getProp] at hv
  | null => simp [JVal.getProp] at hv
  | bool b => simp [JVal.getProp] at hv; subst hv; rfl
  | num n => simp [JVal.getProp] at hv; subst hv; rfl
  | str t => simp [JVal.getProp] at hv; subst hv; rfl
  | arr items => simp [JVal.getProp] at hv; subst hv; rfl

/-- The fields of the record built from a response. -/
theorem buildDocumentData_fields (file : JFile) (category language : String)
    (file_url extractedText aiResponse : JVal) (d : DocumentData)
    (h : buildDocumentData file category language file_url extractedText aiResponse = .ok d) :
    ∃ sev rights,
      aiResponse.getProp "medical_severity" = .ok sev ∧
      aiResponse.getProp "legal_rights_summary" = .ok rights ∧
      d.category = category ∧ d.original_text = extractedText ∧
      d.medical_severity = sev.or .null ∧ d.legal_rights_summary = rights.or .null := by
  unfold buildDocumentData at h
  cases aiResponse with
  | undefined => simp [JVal.isNullish] at h
  | null => simp [JVal.isNullish] at h
  | bool b => simp [JVal.isNullish] at h; subst h; exact ⟨_, _, rfl, rfl, rfl, rfl, rfl, rfl⟩
  | num n => simp [JVal.isNullish] at h; subst h; exact ⟨_, _, rfl, rfl, rfl, rfl, rfl, rfl⟩
  | str t => simp [JVal.isNullish] at h; subst h; exact ⟨_, _, rfl, rfl, rfl, rfl, rfl, rfl⟩
  | arr items => simp [JVal.isNullish] at h; subst h; exact ⟨_, _, rfl, rfl, rfl, rfl, rfl, rfl⟩
  | obj fields => simp [JVal.isNullish] at h; subst h; exact ⟨_, _, rfl, rfl, rfl, rfl, rfl, rfl⟩

/-- C9: `validateFile(file)` returns `true` exactly when `file.type` is one of
the four accepted MIME types and `file.size` is at most 10485760 bytes. -/
theorem validateFile_true_iff (s : UploadState) (file : JFile) :
    (validateFile s file).1 = true ↔
      (file.type ∈ ["application/pdf", "image/jpeg", "image/jpg", "image/png"] ∧
        file.size ≤ 10485760) := by
  have hv : file.type ∈ validTypes ↔
      file.type ∈ ["application/pdf", "image/jpeg", "image/jpg", "image/png"] := by
    simp [validTypes]
  have hm : maxSize = 10485760 := by decide
  by_cases ht : file.type ∈ validTypes
  · by_cases hs : maxSize < file.size
    · have : ¬ file.size ≤ 10485760 := by omega
      simp [validateFile, ht, hs, this]
    · have : file.size ≤ 10485760 := by omega
      have ht2 := hv.mp ht
      simp [validateFile, ht, hs, this]
      simpa using ht2
  · have ht2 : ¬ file.type ∈ ["application/pdf", "image/jpeg", "image/jpg", "image/png"] :=
      fun h => ht (hv.mpr h)
    simp [validateFile, ht]
    intro h
    exact absurd (by simpa using h) ht2

/-- C10: with no file selected or an empty category, `processDocument` only
sets the error message: no service is called, and `isProcessing`, `progress`
and every other state cell keep their values. -/
theorem processDocument_guard (s : UploadState) (g : UploadResponses)
    (h : s.selectedFile = none ∨ s.category = "") :
    (processDocument s g).state = { s with error := "Please select a file and category" } ∧
      (processDocument s g).calls = [] ∧
      (processDocument s g).navigateTo = none ∧
      (processDocument s g).state.isProcessing = s.isProcessing ∧
      (processDocument s g).state.progress = s.progress := by
  unfold processDocument
  cases hf : s.selectedFile with
  | none => simp
  | some file =>
    have hc : s.category = "" := by
      rcases h with h | h
      · rw [hf] at h; cases h
      · exact h
    simp [hc]

/-- C10 at a concrete input: a category is chosen but no file is selected. -/
theorem processDocument_guard_witness :
    ({ UploadState.init with category := "legal" }.selectedFile = none ∨
        { UploadState.init with category := "legal" }.category = "") ∧
      ((processDocument { UploadState.init with category := "legal" }
            (sampleResponses medicalAnswer)).state =
          { UploadState.init with category := "legal",
                                  error := "Please select a file and category" } ∧
        (processDocument { UploadState.init with category := "legal" }
            (sampleResponses medicalAnswer)).calls = [] ∧
        (processDocument { UploadState.init with category := "legal" }
            (sampleResponses medicalAnswer)).navigateTo = none ∧
        (processDocument { UploadState.init with category := "legal" }
            (sampleResponses medicalAnswer)).state.isProcessing = false ∧
        (processDocument { UploadState.init with category := "legal" }
            (sampleResponses medicalAnswer)).state.progress = 0) :=
  ⟨Or.inl rfl,
    processDocument_guard { UploadState.init with category := "legal" }
      (sampleResponses medicalAnswer) (Or.inl rfl)⟩

/-- The schema asked of the model depends on the category only, and does not
ask for a severity outside `medical` nor for rights outside `legal`. -/
theorem selectPrompt_schema_keys (category language : String) (extractedText : JVal) :
    ("medical_severity" ∈ schemaProperties (selectPrompt category language extractedText).2 →
        category = "medical") ∧
      ("legal_rights_summary" ∈ schemaProperties (selectPrompt category language extractedText).2 →
        category = "legal") := by
  unfold selectPrompt
  by_cases hm : category = "medical"
  · subst hm
    simp [schemaProperties, medicalSchema, JVal.getProp, List.lookup]
  · by_cases hl : category = "legal"
    · subst hl
      simp [schemaProperties, legalSchema, JVal.getProp, List.lookup]
    · simp [hm, hl, schemaProperties, genericSchema, JVal.getProp, List.lookup]

/-- C1 (as stated, refuted): with category `legal` and a model answer that
carries a `medical_severity`, the record passed to `Document.create` has a
non-null `medical_severity`. -/
theorem severity_stored_for_legal :
    ∃ d, UploadCall.documentCreate d ∈
        (processDocument (sampleState "legal") (sampleResponses severityAnswer)).calls ∧
      d.category = "legal" ∧ d.medical_severity = .str "90% - High" ∧
      d.medical_severity ≠ .null := by
  refine ⟨severityRecord, ?_, rfl, rfl, by simp [severityRecord]⟩
  have hcalls : (processDocument (sampleState "legal") (sampleResponses severityAnswer)).calls
      = [UploadCall.uploadFile samplePdf,
         UploadCall.extractData (.str "https://files.example/report.pdf") extractSchema,
         UploadCall.invokeLLM (legalPrompt "english" (.str "Patient has mild fever...")) legalSchema,
         UploadCall.documentCreate severityRecord] := rfl
  rw [hcalls]
  simp

/-- C1 (amended): in a run that reaches `Document.create` with a model answer
whose properties are among those of the schema the run asked for, the stored
`medical_severity` is non-null only for category `medical` and the stored
`legal_rights_summary` only for category `legal`; so for `medical` the rights
summary is null and for `legal` the severity is null. -/
theorem documentCreate_category_fields (s : UploadState) (g : UploadResponses)
    (prompt : String) (schema aiResponse : JVal) (d : DocumentData)
    (hasked : UploadCall.invokeLLM prompt schema ∈ (processDocument s g).calls)
    (hd : UploadCall.documentCreate d ∈ (processDocument s g).calls)
    (hresp : g.invokeLLM = .ok aiResponse)
    (hin : withinSchema aiResponse schema = true) :
    (d.medical_severity ≠ .null → d.category = "medical") ∧
      (d.legal_rights_summary ≠ .null → d.category = "legal") ∧
      (d.category = "medical" → d.legal_rights_summary = .null) ∧
      (d.category = "legal" → d.medical_severity = .null) := by
  obtain ⟨file, uploaded, file_url, extractedText, resp, -, -, -, -, -, hi, hb, hcalls⟩ :=
    processDocument_create_inv s g d hd
  rw [hresp] at hi
  cases hi
  have hschema : schema = (selectPrompt s.category s.language extractedText).2 := by
    rw [hcalls] at hasked
    simp only [List.mem_cons, List.mem_append, List.mem_singleton, reduceCtorEq, false_or,
      or_false] at hasked
    rcases hasked with h | h
    · exact absurd h (invokeLLM_not_mem_extractStep file file_url g prompt schema)
    · rcases h with h | h
      · exact (UploadCall.invokeLLM.inj h).2
      · exact absurd h (List.not_mem_nil _)
  obtain ⟨sev, rights, hsev, hrights, hcat, -, hdsev, hdrights⟩ :=
    buildDocumentData_fields _ _ _ _ _ _ _ hb
  obtain ⟨hkm, hkl⟩ := selectPrompt_schema_keys s.category s.language extractedText
  rw [← hschema] at hkm hkl
  have hm : d.medical_severity ≠ .null → d.category = "medical" := by
    intro hne
    rw [hcat]
    by_contra hc
    exact hne (hdsev ▸
      field_or_null_of_withinSchema aiResponse schema _ hin (fun hk => hc (hkm hk)) sev hsev)
  have hl : d.legal_rights_summary ≠ .null → d.category = "legal" := by
    intro hne
    rw [hcat]
    by_contra hc
    exact hne (hdrights ▸
      field_or_null_of_withinSchema aiResponse schema _ hin (fun hk => hc (hkl hk)) rights hrights)
  refine ⟨hm, hl, ?_, ?_⟩
  · intro hc
    by_contra hne
    have := hl hne
    rw [hc] at this
    exact absurd this (by decide)
  · intro hc
    by_contra hne
    have := hm hne
    rw [hc] at this
    exact absurd this (by decide)

/-- C4: once the guard is passed, if `UploadFile` rejects or `InvokeLLM`
rejects then `Document.create` is never called, the error message is the
generic failure text, `isProcessing` ends `false` and no navigation is
scheduled; when `UploadFile` rejects, the upload is the only call made (no
extraction call, no model call). -/
theorem processDocument_upload_or_model_failure (s : UploadState) (g : UploadResponses)
    (file : JFile) (hf : s.selectedFile = some file) (hc : s.category ≠ "")
    (h : (∃ e, g.uploadFile = .error e) ∨ (∃ e, g.invokeLLM = .error e)) :
    (∀ d, UploadCall.documentCreate d ∉ (processDocument s g).calls) ∧
      (processDocument s g).state.error = "Failed to process document. Please try again." ∧
      (processDocument s g).state.isProcessing = false ∧
      (processDocument s g).navigateTo = none ∧
      ((∃ e, g.uploadFile = .error e) →
        (processDocument s g).calls = [UploadCall.uploadFile file]) := by
  refine ⟨?_, ?_, ?_, ?_⟩
  · intro d hd
    obtain ⟨_, _, _, _, _, -, -, hu, -, -, hi, -, -⟩ := processDocument_create_inv s g d hd
    rcases h with ⟨e, he⟩ | ⟨e, he⟩
    · rw [he] at hu; cases hu
    · rw [he] at hi; cases hi
  · cases hu : g.uploadFile with
    | error e => simp [processDocument, processTry, hf, hc, hu]
    | ok uploaded =>
      have hi : ∃ e, g.invokeLLM = .error e := by
        rcases h with ⟨e, he⟩ | h
        · rw [he] at hu; cases hu
        · exact h
      obtain ⟨e, hi⟩ := hi
      cases hp : uploaded.getProp "file_url" with
      | error e => simp [processDocument, processTry, hf, hc, hu, hp]
      | ok file_url =>
        rcases hx : extractStep file file_url g with ⟨c2, e | extractedText⟩ <;>
          simp [processDocument, processTry, hf, hc, hu, hp, hx, hi]
  · simp [processDocument, hf, hc]
  · refine ⟨?_, ?_⟩
    · cases hu : g.uploadFile with
      | error e => simp [processDocument, processTry, hf, hc, hu]
      | ok uploaded =>
        have hi : ∃ e, g.invokeLLM = .error e := by
          rcases h with ⟨e, he⟩ | h
          · rw [he] at hu; cases hu
          · exact h
        obtain ⟨e, hi⟩ := hi
        cases hp : uploaded.getProp "file_url" with
        | error e => simp [processDocument, processTry, hf, hc, hu, hp]
        | ok file_url =>
          rcases hx : extractStep file file_url g with ⟨c2, e | extractedText⟩ <;>
            simp [processDocument, processTry, hf, hc, hu, hp, hx, hi]
    · rintro ⟨e, he⟩
      simp [processDocument, processTry, hf, hc, he]

/-- C4 at a concrete input: the upload of `samplePdf` is rejected. -/
theorem processDocument_upload_or_model_failure_witness :
    (sampleState "medical").selectedFile = some samplePdf ∧
      (sampleState "medical").category ≠ "" ∧
      ((∀ d, UploadCall.documentCreate d ∉
          (processDocument (sampleState "medical") uploadRejected).calls) ∧
        (processDocument (sampleState "medical") uploadRejected).state.error =
          "Failed to process document. Please try again." ∧
        (processDocument (sampleState "medical") uploadRejected).state.isProcessing = false ∧
        (processDocument (sampleState "medical") uploadRejected).navigateTo = none ∧
        ((∃ e, uploadRejected.uploadFile = .error e) →
          (processDocument (sampleState "medical") uploadRejected).calls =
            [UploadCall.uploadFile samplePdf])) :=
  ⟨rfl, by decide,
    processDocument_upload_or_model_failure (sampleState "medical") uploadRejected samplePdf
      rfl (by decide) (Or.inl ⟨"network error", rfl⟩)⟩

/-- The extraction step absorbs a status other than `success` as the empty
text. -/
theorem extractStep_not_success (file : JFile) (file_url : JVal) (g : UploadResponses)
    (extractResult status : JVal) (hx : g.extractData = .ok extractResult)
    (hst : extractResult.getProp "status" = .ok status)
    (hne : status.strictEqStr "success" = false) :
    (extractStep file file_url g).2 = .ok (.str "") := by
  unfold extractStep
  split
  · simp [hx, hst, hne]
  · rfl

/-- C5: when the extraction call resolves with a status other than `success`
(and the upload resolved), `processDocument` still calls the model; and when
the model resolves with a value other than `null` or `undefined`, it calls
`Document.create` with `original_text` the empty string. -/
theorem processDocument_extract_not_success (s : UploadState) (g : UploadResponses)
    (file : JFile) (uploaded file_url extractResult status : JVal)
    (hf : s.selectedFile = some file) (hc : s.category ≠ "")
    (hu : g.uploadFile = .ok uploaded) (hp : uploaded.getProp "file_url" = .ok file_url)
    (hx : g.extractData = .ok extractResult)
    (hst : extractResult.getProp "status" = .ok status)
    (hne : status.strictEqStr "success" = false) :
    (∃ prompt schema, UploadCall.invokeLLM prompt schema ∈ (processDocument s g).calls) ∧
      (∀ aiResponse, g.invokeLLM = .ok aiResponse → aiResponse.isNullish = false →
        ∃ d, UploadCall.documentCreate d ∈ (processDocument s g).calls ∧
          d.original_text = .str "") := by
  have hes := extractStep_not_success file file_url g extractResult status hx hst hne
  rcases hxs : extractStep file file_url g with ⟨c2, r⟩
  rw [hxs] at hes
  simp only at hes
  subst hes
  refine ⟨?_, ?_⟩
  · refine ⟨(selectPrompt s.category s.language (.str "")).1,
      (selectPrompt s.category s.language (.str "")).2, ?_⟩
    cases hi : g.invokeLLM with
    | error e => simp [processDocument, processTry, hf, hc, hu, hp, hxs, hi]
    | ok aiResponse =>
      cases hb : buildDocumentData file s.category s.language file_url (.str "") aiResponse with
      | error e => simp [processDocument, processTry, hf, hc, hu, hp, hxs, hi, hb]
      | ok d =>
        cases hdc : g.documentCreate <;>
          simp [processDocument, processTry, hf, hc, hu, hp, hxs, hi, hb, hdc]
  · intro aiResponse hi hnn
    cases hb : buildDocumentData file s.category s.language file_url (.str "") aiResponse with
    | error e => simp [buildDocumentData, hnn] at hb
    | ok d =>
      refine ⟨d, ?_, ?_⟩
      · cases hdc : g.documentCreate <;>
          simp [processDocument, processTry, hf, hc, hu, hp, hxs, hi, hb, hdc]
      · obtain ⟨_, _, -, -, -, ht, -, -⟩ := buildDocumentData_fields _ _ _ _ _ _ _ hb
        exact ht

/-- C5 at a concrete input: the extraction of `samplePdf` reports `failure`. -/
theorem processDocument_extract_not_success_witness :
    (sampleState "medical").selectedFile = some samplePdf ∧
      (sampleState "medical").category ≠ "" ∧
      extractionFailed.uploadFile = .ok sampleUploaded ∧
      sampleUploaded.getProp "file_url" = .ok (.str "https://files.example/report.pdf") ∧
      extractionFailed.extractData = .ok (.obj [("status", .str "failure")]) ∧
      (JVal.obj [("status", .str "failure")]).getProp "status" = .ok (.str "failure") ∧
      (JVal.str "failure").strictEqStr "success" = false ∧
      ((∃ prompt schema, UploadCall.invokeLLM prompt schema ∈
          (processDocument (sampleState "medical") extractionFailed).calls) ∧
        (∀ aiResponse, extractionFailed.invokeLLM = .ok aiResponse →
          aiResponse.isNullish = false →
          ∃ d, UploadCall.documentCreate d ∈
              (processDocument (sampleState "medical") extractionFailed).calls ∧
            d.original_text = .str "")) :=
  ⟨rfl, by decide, rfl, rfl, rfl, rfl, rfl,
    processDocument_extract_not_success (sampleState "medical") extractionFailed samplePdf
      sampleUploaded (.str "https://files.example/report.pdf")
      (.obj [("status", .str "failure")]) (.str "failure") rfl (by decide) rfl rfl rfl rfl rfl⟩

/-- C1 (amended) at a concrete input: the worked example, category `medical`. -/
theorem documentCreate_category_fields_witness :
    UploadCall.invokeLLM (medicalPrompt "english" (.str "Patient has mild fever...")) medicalSchema ∈
        (processDocument (sampleState "medical") (sampleResponses medicalAnswer)).calls ∧
      UploadCall.documentCreate medicalRecord ∈
        (processDocument (sampleState "medical") (sampleResponses medicalAnswer)).calls ∧
      (sampleResponses medicalAnswer).invokeLLM = .ok medicalAnswer ∧
      withinSchema medicalAnswer medicalSchema = true ∧
      ((medicalRecord.medical_severity ≠ .null → medicalRecord.category = "medical") ∧
        (medicalRecord.legal_rights_summary ≠ .null → medicalRecord.category = "legal") ∧
        (medicalRecord.category = "medical" → medicalRecord.legal_rights_summary = .null) ∧
        (medicalRecord.category = "legal" → medicalRecord.medical_severity = .null)) :=
  have hcalls : (processDocument (sampleState "medical") (sampleResponses medicalAnswer)).calls
      = [UploadCall.uploadFile samplePdf,
         UploadCall.extractData (.str "https://files.example/report.pdf") extractSchema,
         UploadCall.invokeLLM (medicalPrompt "english" (.str "Patient has mild fever...")) medicalSchema,
         UploadCall.documentCreate medicalRecord] := rfl
  have h1 : UploadCall.invokeLLM (medicalPrompt "english" (.str "Patient has mild fever..."))
      medicalSchema ∈ (processDocument (sampleState "medical") (sampleResponses medicalAnswer)).calls := by
    rw [hcalls]; simp
  have h2 : UploadCall.documentCreate medicalRecord ∈
      (processDocument (sampleState "medical") (sampleResponses medicalAnswer)).calls := by
    rw [hcalls]; simp
  ⟨h1, h2, rfl, rfl,
    documentCreate_category_fields (sampleState "medical") (sampleResponses medicalAnswer)
      _ medicalSchema medicalAnswer medicalRecord h1 h2 rfl rfl⟩

/-- C6 (as stated, refuted): when the extraction call is rejected the run
stops after it; the model is not invoked and no `Document.create` call is
made. -/
theorem extraction_rejected_aborts :
    (processDocument (sampleState "medical") extractionRejected).calls =
        [UploadCall.uploadFile samplePdf,
         UploadCall.extractData (.str "https://files.example/report.pdf") extractSchema] ∧
      (∀ d, UploadCall.documentCreate d ∉
        (processDocument (sampleState "medical") extractionRejected).calls) ∧
      (processDocument (sampleState "medical") extractionRejected).state.error =
        "Failed to process document. Please try again." := by
  have hcalls : (processDocument (sampleState "medical") extractionRejected).calls =
      [UploadCall.uploadFile samplePdf,
       UploadCall.extractData (.str "https://files.example/report.pdf") extractSchema] := rfl
  refine ⟨hcalls, ?_, rfl⟩
  intro d hd
  rw [hcalls] at hd
  simp at hd

/-- C6 (amended): when the extraction call is made and rejected,
`processDocument` aborts: the calls are the upload and the extraction only
(no model call, no `Document.create`), the error message is the generic
failure text, `isProcessing` ends `false` and no navigation is scheduled. -/
theorem processDocument_extract_rejected (s : UploadState) (g : UploadResponses)
    (file : JFile) (uploaded file_url : JVal) (e : String)
    (hf : s.selectedFile = some file) (hc : s.category ≠ "")
    (hu : g.uploadFile = .ok uploaded) (hp : uploaded.getProp "file_url" = .ok file_url)
    (ht : file.type = "application/pdf" ∨ jsStartsWith file.type "image/" = true)
    (hx : g.extractData = .error e) :
    (processDocument s g).calls =
        [UploadCall.uploadFile file, UploadCall.extractData file_url extractSchema] ∧
      (processDocument s g).state.error = "Failed to process document. Please try again." ∧
      (processDocument s g).state.isProcessing = false ∧
      (processDocument s g).navigateTo = none := by
  have hxs : extractStep file file_url g =
      ([UploadCall.extractData file_url extractSchema], .error e) := by
    simp [extractStep, ht, hx]
  simp [processDocument, processTry, hf, hc, hu, hp, hxs]

/-- C6 (amended) at a concrete input: the extraction of `samplePdf` is
rejected. -/
theorem processDocument_extract_rejected_witness :
    (sampleState "legal").selectedFile = some samplePdf ∧
      (sampleState "legal").category ≠ "" ∧
      extractionRejected.uploadFile = .ok sampleUploaded ∧
      sampleUploaded.getProp "file_url" = .ok (.str "https://files.example/report.pdf") ∧
      (samplePdf.type = "application/pdf" ∨ jsStartsWith samplePdf.type "image/" = true) ∧
      extractionRejected.extractData = .error "extraction unavailable" ∧
      ((processDocument (sampleState "legal") extractionRejected).calls =
          [UploadCall.uploadFile samplePdf,
           UploadCall.extractData (.str "https://files.example/report.pdf") extractSchema] ∧
        (processDocument (sampleState "legal") extractionRejected).state.error =
          "Failed to process document. Please try again." ∧
        (processDocument (sampleState "legal") extractionRejected).state.isProcessing = false ∧
        (processDocument (sampleState "legal") extractionRejected).navigateTo = none) :=
  ⟨rfl, by decide, rfl, rfl, Or.inl rfl, rfl,
    processDocument_extract_rejected (sampleState "legal") extractionRejected samplePdf
      sampleUploaded (.str "https://files.example/report.pdf") "extraction unavailable"
      rfl (by decide) rfl rfl (Or.inl rfl) rfl⟩

/-- The `try` block leaves the selected file in place. -/
theorem processTry_selectedFile (file : JFile) (s : UploadState) (g : UploadResponses) :
    (processTry file s g).state.selectedFile = s.selectedFile := by
  unfold processTry
  cases g.uploadFile with
  | error e => rfl
  | ok uploaded =>
    simp only
    cases uploaded.getProp "file_url" with
    | error e => rfl
    | ok file_url =>
      simp only
      rcases extractStep file file_url g with ⟨c2, e | extractedText⟩
      · rfl
      · simp only
        cases g.invokeLLM with
        | error e => rfl
        | ok aiResponse =>
          simp only
          cases buildDocumentData file s.category s.language file_url extractedText
              aiResponse with
          | error e => rfl
          | ok d =>
            simp only
            cases g.documentCreate <;> rfl

/-- The handler `processDocument` leaves the selected file in place. -/
theorem processDocument_selectedFile (s : UploadState) (g : UploadResponses) :
    (processDocument s g).state.selectedFile = s.selectedFile := by
  cases hf : s.selectedFile with
  | none => simp [processDocument, hf]
  | some file =>
    by_cases hc : s.category = ""
    · simp [processDocument, hf, hc]
    · have hsel := processTry_selectedFile file
        { s with isProcessing := true, progress := 10, error := "" } g
      simp only [processDocument, hf, hc, if_false]
      split <;> simpa [hf] using hsel

/-- The file handed to `UploadFile` is the selected file. -/
theorem uploadFile_mem_selected (s : UploadState) (g : UploadResponses) (file : JFile)
    (h : UploadCall.uploadFile file ∈ (processDocument s g).calls) :
    s.selectedFile = some file := by
  cases hf : s.selectedFile with
  | none => simp [processDocument, hf] at h
  | some sel =>
    by_cases hc : s.category = ""
    · simp [processDocument, hf, hc] at h
    · have hsel : ∀ calls : List UploadCall, UploadCall.uploadFile file ∈
          UploadCall.uploadFile sel :: calls →
          (∀ c ∈ calls, ∀ f, c ≠ UploadCall.uploadFile f) → sel = file := by
        intro calls hm hno
        rcases List.mem_cons.mp hm with h1 | h1
        · exact (UploadCall.uploadFile.inj h1).symm
        · exact absurd rfl (hno _ h1 file)
      congr 1
      cases hu : g.uploadFile with
      | error e =>
        simp [processDocument, processTry, hf, hc, hu] at h
        exact h.symm
      | ok uploaded =>
        cases hp : uploaded.getProp "file_url" with
        | error e =>
          simp [processDocument, processTry, hf, hc, hu, hp] at h
          exact h.symm
        | ok file_url =>
          have hex : ∀ c ∈ (extractStep sel file_url g).1, ∀ f, c ≠ UploadCall.uploadFile f := by
            intro c hcm f
            rcases extractStep_calls sel file_url g with h0 | h0 <;> rw [h0] at hcm <;>
              simp at hcm
            subst hcm
            simp
          rcases hx : extractStep sel file_url g with ⟨c2, e | extractedText⟩
          · rw [hx] at hex
            simp [processDocument, processTry, hf, hc, hu, hp, hx] at h
            exact hsel c2 (by simpa using h) hex
          · rw [hx] at hex
            cases hi : g.invokeLLM with
            | error e =>
              simp [processDocument, processTry, hf, hc, hu, hp, hx, hi] at h
              exact hsel c2 (by simpa using h) hex
            | ok aiResponse =>
              cases hb : buildDocumentData sel s.category s.language file_url
                  extractedText aiResponse with
              | error e =>
                simp [processDocument, processTry, hf, hc, hu, hp, hx, hi, hb] at h
                exact hsel c2 (by simpa using h) hex
              | ok d =>
                cases hdc : g.documentCreate <;>
                  simp [processDocument, processTry, hf, hc, hu, hp, hx, hi, hb, hdc] at h <;>
                  exact hsel c2 (by simpa using h) hex

/-- Every event keeps the selected file's type accepted. -/
theorem TypeOk_step (s : UploadState) (ev : UploadEvent) (h : TypeOk s) : TypeOk (s.step ev) := by
  cases ev with
  | categoryParam param =>
    intro file hfile
    apply h
    cases param with
    | none => exact hfile
    | some c =>
      simp only [UploadState.step, applyCategoryParam] at hfile
      split at hfile <;> exact hfile
  | clickCategory i => exact fun file hfile => h file hfile
  | selectLanguage i => exact fun file hfile => h file hfile
  | drag type =>
    intro file hfile
    apply h
    simp only [UploadState.step, handleDrag] at hfile
    split at hfile
    · exact hfile
    · split at hfile <;> exact hfile
  | drop files =>
    intro file hfile
    cases files with
    | nil => exact h file hfile
    | cons f rest =>
      simp only [UploadState.step, handleDrop] at hfile
      have hacc := validateFile_accepts { s with dragActive := false } f
      have hsel := validateFile_selectedFile { s with dragActive := false } f
      rcases hv : validateFile { s with dragActive := false } f with ⟨b, s1⟩
      rw [hv] at hacc hsel hfile
      cases b with
      | true =>
        simp only [Option.some.injEq] at hfile
        subst hfile
        exact (hacc rfl).1
      | false =>
        simp only at hfile hsel
        rw [hsel] at hfile
        exact h file hfile
  | fileSelect picked =>
    intro file hfile
    cases picked with
    | none => exact h file hfile
    | some f =>
      simp only [UploadState.step, handleFileSelect] at hfile
      have hacc := validateFile_accepts s f
      have hsel := validateFile_selectedFile s f
      rcases hv : validateFile s f with ⟨b, s1⟩
      rw [hv] at hacc hsel hfile
      cases b with
      | true =>
        simp only [Option.some.injEq] at hfile
        subst hfile
        exact (hacc rfl).1
      | false =>
        simp only at hfile hsel
        rw [hsel] at hfile
        exact h file hfile
  | openCamera =>
    intro file hfile
    apply h
    simp only [UploadState.step, stopCamera] at hfile
    split at hfile <;> exact hfile
  | closeCamera =>
    intro file hfile
    apply h
    simp only [UploadState.step, stopCamera] at hfile
    split at hfile <;> exact hfile
  | cameraStarted granted =>
    intro file hfile
    apply h
    simp only [UploadState.step, startCamera] at hfile
    split at hfile <;> exact hfile
  | capture videoMounted blobSize now =>
    intro file hfile
    simp only [UploadState.step, capturePhoto, stopCamera] at hfile
    split at hfile
    · exact h file hfile
    · simp only [Option.some.injEq] at hfile
      subst hfile
      simp [validTypes]
  | process g =>
    intro file hfile
    apply h
    simp only [UploadState.step] at hfile
    rw [processDocument_selectedFile] at hfile
    exact hfile

/-- In every reachable state the selected file's type is accepted. -/
theorem TypeOk_run (events : List UploadEvent) (s : UploadState) (h : TypeOk s) :
    TypeOk (s.run events) := by
  induction events generalizing s with
  | nil => exact h
  | cons ev rest ih => exact ih (s.step ev) (TypeOk_step s ev h)

/-- C7: in every state reachable from the freshly mounted page by any
sequence of events (drop, file picker, camera capture, category and language
choice, earlier runs), a file that `processDocument` passes to `UploadFile`
has one of the four accepted MIME types. -/
theorem uploaded_file_type_accepted (events : List UploadEvent) (g : UploadResponses)
    (file : JFile)
    (h : UploadCall.uploadFile file ∈ (processDocument (UploadState.init.run events) g).calls) :
    file.type ∈ ["application/pdf", "image/jpeg", "image/jpg", "image/png"] :=
  TypeOk_run events UploadState.init (fun _ hfile => by cases hfile) file
    (uploadFile_mem_selected _ g file h)

/-- C7 at a concrete input: `samplePdf` chosen in the file picker, category
`medical` clicked, then the run. -/
theorem uploaded_file_type_accepted_witness :
    UploadCall.uploadFile samplePdf ∈
        (processDocument
          (UploadState.init.run [.fileSelect (some samplePdf), .clickCategory 1])
          (sampleResponses medicalAnswer)).calls ∧
      samplePdf.type ∈ ["application/pdf", "image/jpeg", "image/jpg", "image/png"] :=
  have hcalls : (processDocument
      (UploadState.init.run [.fileSelect (some samplePdf), .clickCategory 1])
      (sampleResponses medicalAnswer)).calls
      = [UploadCall.uploadFile samplePdf,
         UploadCall.extractData (.str "https://files.example/report.pdf") extractSchema,
         UploadCall.invokeLLM (medicalPrompt "english" (.str "Patient has mild fever...")) medicalSchema,
         UploadCall.documentCreate medicalRecord] := rfl
  have h : UploadCall.uploadFile samplePdf ∈ (processDocument
      (UploadState.init.run [.fileSelect (some samplePdf), .clickCategory 1])
      (sampleResponses medicalAnswer)).calls := by
    rw [hcalls]; simp
  ⟨h, uploaded_file_type_accepted [.fileSelect (some samplePdf), .clickCategory 1]
    (sampleResponses medicalAnswer) samplePdf h⟩

/-- C8 (the code at the failing input): a photo captured from the camera is
selected without passing through `validateFile`; with an encoded size of
10485761 bytes it is handed to `UploadFile` although `validateFile` rejects a
file of that type and size. -/
theorem camera_capture_skips_size_check :
    UploadCall.uploadFile oversizedPhoto ∈
        (processDocument (UploadState.init.run cameraSession)
          (sampleResponses medicalAnswer)).calls ∧
      oversizedPhoto.size = 10485761 ∧ maxSize < oversizedPhoto.size ∧
      (validateFile UploadState.init oversizedPhoto).1 = false := by
  have hhead : (processDocument (UploadState.init.run cameraSession)
      (sampleResponses medicalAnswer)).calls.head? = some (UploadCall.uploadFile oversizedPhoto) :=
    rfl
  exact ⟨List.mem_of_mem_head? hhead, rfl, by decide, by decide⟩

/-- Every field of the record built from a response that is neither `null`
nor `undefined`. -/
theorem buildDocumentData_record (file : JFile) (category language : String)
    (file_url extractedText aiResponse : JVal) (d : DocumentData)
    (h : buildDocumentData file category language file_url extractedText aiResponse = .ok d) :
    ∃ summary points sev rights steps,
      aiResponse.getProp "simplified_summary" = .ok summary ∧
      aiResponse.getProp "key_points" = .ok points ∧
      aiResponse.getProp "medical_severity" = .ok sev ∧
      aiResponse.getProp "legal_rights_summary" = .ok rights ∧
      aiResponse.getProp "suggested_next_steps" = .ok steps ∧
      d = { title := file.name, category := category, file_url := file_url,
            original_text := extractedText, simplified_summary := summary,
            key_points := points.or (.arr []), language := language,
            processing_status := "completed", file_type := file.type,
            medical_severity := sev.or .null, legal_rights_summary := rights.or .null,
            suggested_next_steps := steps.or .null } := by
  unfold buildDocumentData at h
  cases aiResponse with
  | undefined => simp [JVal.isNullish] at h
  | null => simp [JVal.isNullish] at h
  | bool b =>
    simp [JVal.isNullish] at h; subst h; exact ⟨_, _, _, _, _, rfl, rfl, rfl, rfl, rfl, rfl⟩
  | num n =>
    simp [JVal.isNullish] at h; subst h; exact ⟨_, _, _, _, _, rfl, rfl, rfl, rfl, rfl, rfl⟩
  | str t =>
    simp [JVal.isNullish] at h; subst h; exact ⟨_, _, _, _, _, rfl, rfl, rfl, rfl, rfl, rfl⟩
  | arr items =>
    simp [JVal.isNullish] at h; subst h; exact ⟨_, _, _, _, _, rfl, rfl, rfl, rfl, rfl, rfl⟩
  | obj fields =>
    simp [JVal.isNullish] at h; subst h; exact ⟨_, _, _, _, _, rfl, rfl, rfl, rfl, rfl, rfl⟩

/-- A truthy value survives `v || fallback`. -/
theorem or_of_truthy (v fallback : JVal) (h : v.truthy = true) : v.or fallback = v := by
  simp [JVal.or, h]

/-- C11 (as stated, refuted): a `medical_severity` that is present in the
model's response as the empty string is stored as `null`, not as the
response's value. -/
theorem empty_severity_stored_as_null :
    ∃ d, UploadCall.documentCreate d ∈
        (processDocument (sampleState "medical") (sampleResponses emptySeverityAnswer)).calls ∧
      emptySeverityAnswer.getProp "medical_severity" = .ok (.str "") ∧
      d.medical_severity = .null ∧ d.medical_severity ≠ .str "" := by
  refine ⟨{ medicalRecord with simplified_summary := .str "A short report.",
                               medical_severity := .null, suggested_next_steps := .null },
    ?_, rfl, rfl, by simp⟩
  have hlast : (processDocument (sampleState "medical")
      (sampleResponses emptySeverityAnswer)).calls.getLast? =
      some (UploadCall.documentCreate
        { medicalRecord with simplified_summary := .str "A short report.",
                             medical_severity := .null, suggested_next_steps := .null }) := rfl
  exact List.mem_of_getLast?_eq_some hlast

/-- C11 (amended): in a run that reaches `Document.create`, the record has
`processing_status` `completed`, the file's name as title, the chosen category
and language, the `file_url` property of the upload result, the extracted text
as `original_text`, the response's `simplified_summary` as it is, and each of
`key_points`, `medical_severity` and `suggested_next_steps` with exactly the
response's value whenever that value is truthy. -/
theorem documentCreate_fields (s : UploadState) (g : UploadResponses) (d : DocumentData)
    (file : JFile) (uploaded file_url extractedText aiResponse : JVal)
    (hd : UploadCall.documentCreate d ∈ (processDocument s g).calls)
    (hf : s.selectedFile = some file) (hu : g.uploadFile = .ok uploaded)
    (hp : uploaded.getProp "file_url" = .ok file_url)
    (hx : (extractStep file file_url g).2 = .ok extractedText)
    (hi : g.invokeLLM = .ok aiResponse) :
    d.processing_status = "completed" ∧ d.title = file.name ∧ d.category = s.category ∧
      d.language = s.language ∧ d.file_url = file_url ∧ d.original_text = extractedText ∧
      (∀ v, aiResponse.getProp "simplified_summary" = .ok v → d.simplified_summary = v) ∧
      (∀ v, aiResponse.getProp "key_points" = .ok v → v.truthy = true → d.key_points = v) ∧
      (∀ v, aiResponse.getProp "medical_severity" = .ok v → v.truthy = true →
        d.medical_severity = v) ∧
      (∀ v, aiResponse.getProp "suggested_next_steps" = .ok v → v.truthy = true →
        d.suggested_next_steps = v) := by
  obtain ⟨file2, uploaded2, file_url2, text2, resp2, hf2, -, hu2, hp2, hx2, hi2, hb, -⟩ :=
    processDocument_create_inv s g d hd
  rw [hf] at hf2; cases hf2
  rw [hu] at hu2; cases hu2
  rw [hp] at hp2; cases hp2
  rw [hx] at hx2; cases hx2
  rw [hi] at hi2; cases hi2
  obtain ⟨summary, points, sev, rights, steps, hsum, hpts, hsev, -, hsteps, hrec⟩ :=
    buildDocumentData_record _ _ _ _ _ _ _ hb
  subst hrec
  refine ⟨rfl, rfl, rfl, rfl, rfl, rfl, ?_, ?_, ?_, ?_⟩
  · intro v hv
    rw [hsum] at hv; cases hv; rfl
  · intro v hv ht
    rw [hpts] at hv; cases hv
    exact or_of_truthy _ _ ht
  · intro v hv ht
    rw [hsev] at hv; cases hv
    exact or_of_truthy _ _ ht
  · intro v hv ht
    rw [hsteps] at hv; cases hv
    exact or_of_truthy _ _ ht

/-- C11 (amended) at a concrete input: the worked example, category
`medical`. -/
theorem documentCreate_fields_witness :
    UploadCall.documentCreate medicalRecord ∈
        (processDocument (sampleState "medical") (sampleResponses medicalAnswer)).calls ∧
      (sampleState "medical").selectedFile = some samplePdf ∧
      (sampleResponses medicalAnswer).uploadFile = .ok sampleUploaded ∧
      sampleUploaded.getProp "file_url" = .ok (.str "https://files.example/report.pdf") ∧
      (extractStep samplePdf (.str "https://files.example/report.pdf")
          (sampleResponses medicalAnswer)).2 = .ok (.str "Patient has mild fever...") ∧
      (sampleResponses medicalAnswer).invokeLLM = .ok medicalAnswer ∧
      (medicalRecord.processing_status = "completed" ∧ medicalRecord.title = samplePdf.name ∧
        medicalRecord.category = (sampleState "medical").category ∧
        medicalRecord.language = (sampleState "medical").language ∧
        medicalRecord.file_url = .str "https://files.example/report.pdf" ∧
        medicalRecord.original_text = .str "Patient has mild fever..." ∧
        (∀ v, medicalAnswer.getProp "simplified_summary" = .ok v →
          medicalRecord.simplified_summary = v) ∧
        (∀ v, medicalAnswer.getProp "key_points" = .ok v → v.truthy = true →
          medicalRecord.key_points = v) ∧
        (∀ v, medicalAnswer.getProp "medical_severity" = .ok v → v.truthy = true →
          medicalRecord.medical_severity = v) ∧
        (∀ v, medicalAnswer.getProp "suggested_next_steps" = .ok v → v.truthy = true →
          medicalRecord.suggested_next_steps = v)) :=
  have hlast : (processDocument (sampleState "medical")
      (sampleResponses medicalAnswer)).calls.getLast? =
      some (UploadCall.documentCreate medicalRecord) := rfl
  ⟨List.mem_of_getLast?_eq_some hlast, rfl, rfl, rfl, rfl, rfl,
    documentCreate_fields (sampleState "medical") (sampleResponses medicalAnswer) medicalRecord
      samplePdf sampleUploaded (.str "https://files.example/report.pdf")
      (.str "Patient has mild fever...") medicalAnswer (List.mem_of_getLast?_eq_some hlast)
      rfl rfl rfl rfl rfl⟩

/-- C12 (as stated, refuted): for a response object with no property, the
record passed to `Document.create` has `simplified_summary` `undefined` (the
property is left unset), not `null`. -/
theorem absent_summary_stored_undefined :
    ∃ d, UploadCall.documentCreate d ∈
        (processDocument (sampleState "medical") (sampleResponses emptyAnswer)).calls ∧
      emptyAnswer.getProp "simplified_summary" = .ok .undefined ∧
      d.simplified_summary = .undefined ∧ d.simplified_summary ≠ .null := by
  refine ⟨{ medicalRecord with simplified_summary := .undefined, key_points := .arr [],
                               medical_severity := .null, suggested_next_steps := .null },
    ?_, rfl, rfl, by simp⟩
  have hlast : (processDocument (sampleState "medical")
      (sampleResponses emptyAnswer)).calls.getLast? =
      some (UploadCall.documentCreate
        { medicalRecord with simplified_summary := .undefined, key_points := .arr [],
                             medical_severity := .null, suggested_next_steps := .null }) := rfl
  exact List.mem_of_getLast?_eq_some hlast

/-- C12 (amended): once the upload and the extraction step have resolved,
for every response object of the model, whichever properties it lacks,
`processDocument` calls `Document.create` (and ends without error when that
call resolves); a lacking `key_points` is stored as the empty list, a lacking
`medical_severity`, `legal_rights_summary` or `suggested_next_steps` as
`null`, and a lacking `simplified_summary` is left `undefined`. -/
theorem documentCreate_defaults (s : UploadState) (g : UploadResponses) (file : JFile)
    (uploaded file_url extractedText : JVal) (fields : List (String × JVal))
    (hf : s.selectedFile = some file) (hc : s.category ≠ "")
    (hu : g.uploadFile = .ok uploaded) (hp : uploaded.getProp "file_url" = .ok file_url)
    (hx : (extractStep file file_url g).2 = .ok extractedText)
    (hi : g.invokeLLM = .ok (.obj fields)) :
    ∃ d, UploadCall.documentCreate d ∈ (processDocument s g).calls ∧
      (fields.lookup "key_points" = none → d.key_points = .arr []) ∧
      (fields.lookup "simplified_summary" = none → d.simplified_summary = .undefined) ∧
      (fields.lookup "medical_severity" = none → d.medical_severity = .null) ∧
      (fields.lookup "legal_rights_summary" = none → d.legal_rights_summary = .null) ∧
      (fields.lookup "suggested_next_steps" = none → d.suggested_next_steps = .null) ∧
      (g.documentCreate = .ok () →
        (processDocument s g).navigateTo = some "Dashboard" ∧
          (processDocument s g).state.error = "" ∧
          (processDocument s g).state.progress = 100) := by
  rcases hxs : extractStep file file_url g with ⟨c2, r⟩
  rw [hxs] at hx
  simp only at hx
  subst hx
  cases hb : buildDocumentData file s.category s.language file_url extractedText
      (.obj fields) with
  | error e => simp [buildDocumentData, JVal.isNullish] at hb
  | ok d =>
    have hb2 := hb
    simp only [buildDocumentData, JVal.isNullish, Bool.false_eq_true, if_false,
      JVal.getProp, Except.ok.injEq] at hb2
    refine ⟨d, ?_, ?_, ?_, ?_, ?_, ?_, ?_⟩
    · cases hdc : g.documentCreate <;>
        simp [processDocument, processTry, hf, hc, hu, hp, hxs, hi, hb, hdc]
    · intro h; subst hb2; simp [h, JVal.or, JVal.truthy]
    · intro h; subst hb2; simp [h]
    · intro h; subst hb2; simp [h, JVal.or, JVal.truthy]
    · intro h; subst hb2; simp [h, JVal.or, JVal.truthy]
    · intro h; subst hb2; simp [h, JVal.or, JVal.truthy]
    · intro hdc
      simp [processDocument, processTry, hf, hc, hu, hp, hxs, hi, hb, hdc]

/-- C12 (amended) at a concrete input: the model answers with an object that
has no property. -/
theorem documentCreate_defaults_witness :
    (sampleState "medical").selectedFile = some samplePdf ∧
      (sampleState "medical").category ≠ "" ∧
      (sampleResponses emptyAnswer).uploadFile = .ok sampleUploaded ∧
      sampleUploaded.getProp "file_url" = .ok (.str "https://files.example/report.pdf") ∧
      (extractStep samplePdf (.str "https://files.example/report.pdf")
          (sampleResponses emptyAnswer)).2 = .ok (.str "Patient has mild fever...") ∧
      (sampleResponses emptyAnswer).invokeLLM = .ok (.obj []) ∧
      (∃ d, UploadCall.documentCreate d ∈
          (processDocument (sampleState "medical") (sampleResponses emptyAnswer)).calls ∧
        (([] : List (String × JVal)).lookup "key_points" = none → d.key_points = .arr []) ∧
        (([] : List (String × JVal)).lookup "simplified_summary" = none →
          d.simplified_summary = .undefined) ∧
        (([] : List (String × JVal)).lookup "medical_severity" = none →
          d.medical_severity = .null) ∧
        (([] : List (String × JVal)).lookup "legal_rights_summary" = none →
          d.legal_rights_summary = .null) ∧
        (([] : List (String × JVal)).lookup "suggested_next_steps" = none →
          d.suggested_next_steps = .null) ∧
        ((sampleResponses emptyAnswer).documentCreate = .ok () →
          (processDocument (sampleState "medical") (sampleResponses emptyAnswer)).navigateTo =
              some "Dashboard" ∧
            (processDocument (sampleState "medical") (sampleResponses emptyAnswer)).state.error
              = "" ∧
            (processDocument (sampleState "medical")
              (sampleResponses emptyAnswer)).state.progress = 100)) :=
  ⟨rfl, by decide, rfl, rfl, rfl, rfl,
    documentCreate_defaults (sampleState "medical") (sampleResponses emptyAnswer) samplePdf
      sampleUploaded (.str "https://files.example/report.pdf")
      (.str "Patient has mild fever...") [] rfl (by decide) rfl rfl rfl rfl⟩

/-- A model call of `processDocument` carries the prompt and the schema
selected for the state's category and language. -/
theorem processDocument_invoke_inv (s : UploadState) (g : UploadResponses)
    (prompt : String) (schema : JVal)
    (h : UploadCall.invokeLLM prompt schema ∈ (processDocument s g).calls) :
    ∃ extractedText, prompt = (selectPrompt s.category s.language extractedText).1 ∧
      schema = (selectPrompt s.category s.language extractedText).2 := by
  cases hf : s.selectedFile with
  | none => simp [processDocument, hf] at h
  | some file =>
    by_cases hc : s.category = ""
    · simp [processDocument, hf, hc] at h
    · cases hu : g.uploadFile with
      | error e => simp [processDocument, processTry, hf, hc, hu] at h
      | ok uploaded =>
        cases hp : uploaded.getProp "file_url" with
        | error e => simp [processDocument, processTry, hf, hc, hu, hp] at h
        | ok file_url =>
          have hno := invokeLLM_not_mem_extractStep file file_url g prompt schema
          rcases hx : extractStep file file_url g with ⟨c2, e | extractedText⟩
          · rw [hx] at hno
            simp [processDocument, processTry, hf, hc, hu, hp, hx] at h
            exact absurd h hno
          · rw [hx] at hno
            refine ⟨extractedText, ?_⟩
            have key : UploadCall.invokeLLM prompt schema ∈ c2 ∨
                (prompt = (selectPrompt s.category s.language extractedText).1 ∧
                  schema = (selectPrompt s.category s.language extractedText).2) := by
              cases hi : g.invokeLLM with
              | error e =>
                simpa [processDocument, processTry, hf, hc, hu, hp, hx, hi] using h
              | ok aiResponse =>
                cases hb : buildDocumentData file s.category s.language file_url
                    extractedText aiResponse with
                | error e =>
                  simpa [processDocument, processTry, hf, hc, hu, hp, hx, hi, hb] using h
                | ok d =>
                  cases hdc : g.documentCreate <;>
                    simpa [processDocument, processTry, hf, hc, hu, hp, hx, hi, hb, hdc] using h
            rcases key with h1 | h1
            · exact absurd h1 hno
            · exact h1

/-- C13: the response schema that `processDocument` passes to `InvokeLLM` is
a function of the category alone: for `medical` its properties are
`simplified_summary`, `key_points`, `medical_severity`,
`suggested_next_steps`; for `legal` they are `simplified_summary`,
`key_points`, `legal_rights_summary`, `suggested_next_steps`; for every other
category `simplified_summary` and `key_points` only. -/
theorem response_schema_by_category (s : UploadState) (g : UploadResponses)
    (prompt : String) (schema : JVal)
    (h : UploadCall.invokeLLM prompt schema ∈ (processDocument s g).calls) :
    schema = (if s.category = "medical" then medicalSchema
      else if s.category = "legal" then legalSchema else genericSchema) ∧
    schemaProperties schema =
      (if s.category = "medical" then
        ["simplified_summary", "key_points", "medical_severity", "suggested_next_steps"]
      else if s.category = "legal" then
        ["simplified_summary", "key_points", "legal_rights_summary", "suggested_next_steps"]
      else ["simplified_summary", "key_points"]) := by
  obtain ⟨extractedText, -, hs⟩ := processDocument_invoke_inv s g prompt schema h
  subst hs
  unfold selectPrompt
  by_cases hm : s.category = "medical"
  · simp [hm, schemaProperties, medicalSchema, JVal.getProp, List.lookup]
  · by_cases hl : s.category = "legal"
    · simp [hl, schemaProperties, legalSchema, JVal.getProp, List.lookup]
    · simp [hm, hl, schemaProperties, genericSchema, JVal.getProp, List.lookup]

/-- C13 at a concrete input: a `legal` run. -/
theorem response_schema_by_category_witness :
    UploadCall.invokeLLM (legalPrompt "english" (.str "Patient has mild fever...")) legalSchema ∈
        (processDocument (sampleState "legal") (sampleResponses severityAnswer)).calls ∧
      (legalSchema = (if (sampleState "legal").category = "medical" then medicalSchema
          else if (sampleState "legal").category = "legal" then legalSchema
          else genericSchema) ∧
        schemaProperties legalSchema =
          (if (sampleState "legal").category = "medical" then
            ["simplified_summary", "key_points", "medical_severity", "suggested_next_steps"]
          else if (sampleState "legal").category = "legal" then
            ["simplified_summary", "key_points", "legal_rights_summary", "suggested_next_steps"]
          else ["simplified_summary", "key_points"])) :=
  have hcalls : (processDocument (sampleState "legal") (sampleResponses severityAnswer)).calls
      = [UploadCall.uploadFile samplePdf,
         UploadCall.extractData (.str "https://files.example/report.pdf") extractSchema,
         UploadCall.invokeLLM (legalPrompt "english" (.str "Patient has mild fever...")) legalSchema,
         UploadCall.documentCreate severityRecord] := rfl
  have h : UploadCall.invokeLLM (legalPrompt "english" (.str "Patient has mild fever..."))
      legalSchema ∈ (processDocument (sampleState "legal") (sampleResponses severityAnswer)).calls := by
    rw [hcalls]; simp
  ⟨h, response_schema_by_category (sampleState "legal") (sampleResponses severityAnswer) _ _ h⟩

/-- The extraction condition holds for each of the four accepted types. -/
theorem extraction_condition_of_accepted (file : JFile)
    (ht : file.type ∈ ["application/pdf", "image/jpeg", "image/jpg", "image/png"]) :
    file.type = "application/pdf" ∨ jsStartsWith file.type "image/" = true := by
  simp only [List.mem_cons, List.mem_singleton, List.not_mem_nil, or_false] at ht
  rcases ht with h | h | h | h <;> rw [h]
  · exact Or.inl rfl
  · exact Or.inr (by decide)
  · exact Or.inr (by decide)
  · exact Or.inr (by decide)

/-- When the extraction condition holds the extraction service is called
exactly once. -/
theorem extractStep_calls_of_condition (file : JFile) (file_url : JVal) (g : UploadResponses)
    (hcond : file.type = "application/pdf" ∨ jsStartsWith file.type "image/" = true) :
    (extractStep file file_url g).1 = [UploadCall.extractData file_url extractSchema] := by
  unfold extractStep
  rw [if_pos hcond]
  cases g.extractData with
  | error e => rfl
  | ok r =>
    simp only
    cases r.getProp "status" with
    | error e => rfl
    | ok status =>
      simp only
      split
      · cases r.getProp "output" with
        | error e => rfl
        | ok output =>
          simp only
          cases output.getProp "text_content" <;> rfl
      · rfl

/-- A run that ends without error has reached `Document.create`. -/
theorem documentCreate_mem_of_success (s : UploadState) (g : UploadResponses)
    (h : (processDocument s g).navigateTo = some "Dashboard") :
    ∃ d, UploadCall.documentCreate d ∈ (processDocument s g).calls := by
  cases hf : s.selectedFile with
  | none => simp [processDocument, hf] at h
  | some file =>
    by_cases hc : s.category = ""
    · simp [processDocument, hf, hc] at h
    · cases hu : g.uploadFile with
      | error e => simp [processDocument, processTry, hf, hc, hu] at h
      | ok uploaded =>
        cases hp : uploaded.getProp "file_url" with
        | error e => simp [processDocument, processTry, hf, hc, hu, hp] at h
        | ok file_url =>
          rcases hx : extractStep file file_url g with ⟨c2, e | extractedText⟩
          · simp [processDocument, processTry, hf, hc, hu, hp, hx] at h
          · cases hi : g.invokeLLM with
            | error e => simp [processDocument, processTry, hf, hc, hu, hp, hx, hi] at h
            | ok aiResponse =>
              cases hb : buildDocumentData file s.category s.language file_url
                  extractedText aiResponse with
              | error e => simp [processDocument, processTry, hf, hc, hu, hp, hx, hi, hb] at h
              | ok d =>
                refine ⟨d, ?_⟩
                cases hdc : g.documentCreate <;>
                  simp [processDocument, processTry, hf, hc, hu, hp, hx, hi, hb, hdc]

/-- C14: a run on a selected file of accepted type that ends without error
made exactly four calls, in this order: `UploadFile` on the file,
`ExtractDataFromUploadedFile`, `InvokeLLM`, `Document.create`; the extraction
condition (type `application/pdf` or starting with `image/`) holds for each of
the four accepted types, so the extraction call is never skipped. -/
theorem successful_run_calls (s : UploadState) (g : UploadResponses) (file : JFile)
    (hf : s.selectedFile = some file)
    (ht : file.type ∈ ["application/pdf", "image/jpeg", "image/jpg", "image/png"])
    (hsucc : (processDocument s g).navigateTo = some "Dashboard") :
    (file.type = "application/pdf" ∨ jsStartsWith file.type "image/" = true) ∧
      ∃ file_url prompt schema d,
        (processDocument s g).calls =
          [UploadCall.uploadFile file, UploadCall.extractData file_url extractSchema,
           UploadCall.invokeLLM prompt schema, UploadCall.documentCreate d] := by
  have hcond := extraction_condition_of_accepted file ht
  refine ⟨hcond, ?_⟩
  obtain ⟨d, hd⟩ := documentCreate_mem_of_success s g hsucc
  obtain ⟨file2, uploaded, file_url, extractedText, aiResponse, hf2, -, -, -, -, -, -, hcalls⟩ :=
    processDocument_create_inv s g d hd
  rw [hf] at hf2
  cases hf2
  rw [extractStep_calls_of_condition file file_url g hcond] at hcalls
  exact ⟨file_url, _, _, d, by simpa using hcalls⟩

/-- C14 at a concrete input: the worked example. -/
theorem successful_run_calls_witness :
    (sampleState "medical").selectedFile = some samplePdf ∧
      samplePdf.type ∈ ["application/pdf", "image/jpeg", "image/jpg", "image/png"] ∧
      (processDocument (sampleState "medical") (sampleResponses medicalAnswer)).navigateTo =
        some "Dashboard" ∧
      ((samplePdf.type = "application/pdf" ∨ jsStartsWith samplePdf.type "image/" = true) ∧
        ∃ file_url prompt schema d,
          (processDocument (sampleState "medical") (sampleResponses medicalAnswer)).calls =
            [UploadCall.uploadFile samplePdf, UploadCall.extractData file_url extractSchema,
             UploadCall.invokeLLM prompt schema, UploadCall.documentCreate d]) :=
  ⟨rfl, by decide, rfl,
    successful_run_calls (sampleState "medical") (sampleResponses medicalAnswer) samplePdf
      rfl (by decide) rfl⟩

/-- The `try` block leaves the category in place. -/
theorem processTry_category (file : JFile) (s : UploadState) (g : UploadResponses) :
    (processTry file s g).state.category = s.category := by
  unfold processTry
  cases g.uploadFile with
  | error e => rfl
  | ok uploaded =>
    simp only
    cases uploaded.getProp "file_url" with
    | error e => rfl
    | ok file_url =>
      simp only
      rcases extractStep file file_url g with ⟨c2, e | extractedText⟩
      · rfl
      · simp only
        cases g.invokeLLM with
        | error e => rfl
        | ok aiResponse =>
          simp only
          cases buildDocumentData file s.category s.language file_url extractedText
              aiResponse with
          | error e => rfl
          | ok d =>
            simp only
            cases g.documentCreate <;> rfl

/-- The handler `processDocument` leaves the category in place. -/
theorem processDocument_category (s : UploadState) (g : UploadResponses) :
    (processDocument s g).state.category = s.category := by
  cases hf : s.selectedFile with
  | none => simp [processDocument, hf]
  | some file =>
    by_cases hc : s.category = ""
    · simp [processDocument, hf, hc]
    · have hcat := processTry_category file
        { s with isProcessing := true, progress := 10, error := "" } g
      simp only [processDocument, hf, hc, if_false]
      split <;> simpa [hf] using hcat

/-- The function `validateFile` never touches the category. -/
theorem validateFile_category (s : UploadState) (file : JFile) :
    (validateFile s file).2.category = s.category := by
  unfold validateFile
  split
  · rfl
  · split <;> rfl

/-- The property `CategoryOk` depends on the category only. -/
theorem CategoryOk_of_category_eq (s t : UploadState) (heq : t.category = s.category)
    (h : CategoryOk s) : CategoryOk t := by
  unfold CategoryOk at h ⊢
  rw [heq]
  exact h

/-- Every event keeps the category empty or in the enumeration. -/
theorem CategoryOk_step (s : UploadState) (ev : UploadEvent) (h : CategoryOk s) :
    CategoryOk (s.step ev) := by
  cases ev with
  | categoryParam param =>
    cases param with
    | none => exact h
    | some c =>
      simp only [UploadState.step, applyCategoryParam]
      split
      · rename_i hc
        right
        simpa using hc.2
      · exact h
  | clickCategory i =>
    right
    simp only [UploadState.step, CATEGORIES]
    revert i
    decide
  | selectLanguage i => exact h
  | drag type =>
    simp only [UploadState.step, handleDrag]
    split
    · exact h
    · split <;> exact h
  | drop files =>
    cases files with
    | nil => exact h
    | cons f rest =>
      apply CategoryOk_of_category_eq _ _ _ h
      simp only [UploadState.step, handleDrop]
      have hcat := validateFile_category { s with dragActive := false } f
      rcases hv : validateFile { s with dragActive := false } f with ⟨b, s1⟩
      rw [hv] at hcat
      cases b <;> exact hcat
  | fileSelect picked =>
    cases picked with
    | none => exact h
    | some f =>
      apply CategoryOk_of_category_eq _ _ _ h
      simp only [UploadState.step, handleFileSelect]
      have hcat := validateFile_category s f
      rcases hv : validateFile s f with ⟨b, s1⟩
      rw [hv] at hcat
      cases b <;> exact hcat
  | openCamera =>
    simp only [UploadState.step, stopCamera]
    split <;> exact h
  | closeCamera =>
    simp only [UploadState.step, stopCamera]
    split <;> exact h
  | cameraStarted granted =>
    simp only [UploadState.step, startCamera]
    split <;> exact h
  | capture videoMounted blobSize now =>
    simp only [UploadState.step, capturePhoto, stopCamera]
    split <;> exact h
  | process g =>
    simp only [UploadState.step, CategoryOk]
    rw [processDocument_category]
    exact h

/-- In every reachable state the category is empty or in the enumeration. -/
theorem CategoryOk_run (events : List UploadEvent) (s : UploadState) (h : CategoryOk s) :
    CategoryOk (s.run events) := by
  induction events generalizing s with
  | nil => exact h
  | cons ev rest ih => exact ih (s.step ev) (CategoryOk_step s ev h)

/-- C27: in every state reachable from the freshly mounted upload page the
category is the empty string or one of `legal`, `medical`, `government`,
`financial`, `employment`, `academic`; a `category` URL parameter outside the
six leaves the state as it is; and whenever `processDocument` reaches the
model call (so the category passed the non-empty check and prompt selection
ran) the category is one of the six. -/
theorem category_in_enumeration (events : List UploadEvent) (g : UploadResponses) :
    ((UploadState.init.run events).category = "" ∨
        (UploadState.init.run events).category ∈
          ["legal", "medical", "government", "financial", "employment", "academic"]) ∧
      (∀ prompt schema,
        UploadCall.invokeLLM prompt schema ∈
            (processDocument (UploadState.init.run events) g).calls →
          (UploadState.init.run events).category ∈
            ["legal", "medical", "government", "financial", "employment", "academic"]) ∧
      (∀ (s : UploadState) (c : String),
        c ∉ ["legal", "medical", "government", "financial", "employment", "academic"] →
          applyCategoryParam s (some c) = s) := by
  have hok : CategoryOk (UploadState.init.run events) :=
    CategoryOk_run events UploadState.init (Or.inl rfl)
  refine ⟨hok, ?_, ?_⟩
  · intro prompt schema hcall
    rcases hok with h | h
    · exfalso
      cases hf : (UploadState.init.run events).selectedFile <;>
        simp [processDocument, hf, h] at hcall
    · exact h
  · intro s c hc
    have : ¬ c ∈ CATEGORIES := hc
    simp [applyCategoryParam, this]

/-- C27 at a concrete input: a `category` URL parameter outside the six, a
file chosen, `medical` clicked, then the run. -/
theorem category_in_enumeration_witness :
    (UploadState.init.run [.categoryParam (some "tax"), .fileSelect (some samplePdf)]).category
        = "" ∧
      UploadCall.invokeLLM (medicalPrompt "english" (.str "Patient has mild fever..."))
          medicalSchema ∈
        (processDocument
          (UploadState.init.run [.categoryParam (some "tax"), .fileSelect (some samplePdf),
            .clickCategory 1])
          (sampleResponses medicalAnswer)).calls ∧
      (UploadState.init.run [.categoryParam (some "tax"), .fileSelect (some samplePdf),
          .clickCategory 1]).category ∈
        ["legal", "medical", "government", "financial", "employment", "academic"] ∧
      applyCategoryParam UploadState.init (some "tax") = UploadState.init :=
  have hcalls : (processDocument
      (UploadState.init.run [.categoryParam (some "tax"), .fileSelect (some samplePdf),
        .clickCategory 1])
      (sampleResponses medicalAnswer)).calls
      = [UploadCall.uploadFile samplePdf,
         UploadCall.extractData (.str "https://files.example/report.pdf") extractSchema,
         UploadCall.invokeLLM (medicalPrompt "english" (.str "Patient has mild fever...")) medicalSchema,
         UploadCall.documentCreate medicalRecord] := rfl
  have h : UploadCall.invokeLLM (medicalPrompt "english" (.str "Patient has mild fever..."))
      medicalSchema ∈ (processDocument
        (UploadState.init.run [.categoryParam (some "tax"), .fileSelect (some samplePdf),
          .clickCategory 1])
        (sampleResponses medicalAnswer)).calls := by
    rw [hcalls]; simp
  ⟨rfl, h,
    (category_in_enumeration [.categoryParam (some "tax"), .fileSelect (some samplePdf),
      .clickCategory 1] (sampleResponses medicalAnswer)).2.1 _ _ h,
    (category_in_enumeration [] (sampleResponses medicalAnswer)).2.2 UploadState.init "tax"
      (by decide)⟩

end Upload

/-! ## Properties of the chat turn -/

namespace Chat

/-- Growth of the transcript over one `sendMessage` call that passes its
guard: two messages when the model call is rejected or the store write
resolves, three when the model call resolves and the store write is rejected
(the reply already appended is followed by the fallback message). -/
theorem sendMessage_length (s : ChatState) (e : TurnEnv) (doc : Doc)
    (hdoc : s.selectedDocument = some doc) (hin : jsTrim s.inputMessage ≠ "")
    (hload : s.isLoading = false) :
    (sendMessage s e).state.messages.length =
      s.messages.length +
        (match e.invokeLLM, s.conversation with
          | .error _, _ => 2
          | .ok _, some _ => (match e.conversationUpdate with | .ok _ => 2 | .error _ => 3)
          | .ok _, none => (match e.conversationCreate with | .ok _ => 2 | .error _ => 3)) := by
  unfold sendMessage
  simp only [hdoc, hin, hload, false_or, Bool.false_eq_true, if_false]
  cases e.invokeLLM with
  | error err => simp [catchBlock]
  | ok aiResponse =>
    cases s.conversation with
    | some conversation => cases e.conversationUpdate <;> simp [catchBlock]
    | none => cases e.conversationCreate <;> simp [catchBlock]

/-- C2 (the code at the failing input): the model call resolves and the
store write is rejected; the call passes its guard and the transcript grows by
three messages, the real reply followed by the fallback message. -/
theorem store_failure_appends_three :
    freshChat.selectedDocument = some sampleDoc ∧ jsTrim freshChat.inputMessage ≠ "" ∧
      freshChat.isLoading = false ∧
      (sendMessage freshChat storeRejected).state.messages.length =
        freshChat.messages.length + 3 ∧
      (sendMessage freshChat storeRejected).state.messages.map (fun m => m.role) =
        ["user", "assistant", "assistant"] := by
  refine ⟨rfl, by decide, rfl, rfl, rfl⟩

/-- C3 (the code at the failing input): starting from the empty transcript,
one completed turn whose store write is rejected leaves the roles user,
assistant, assistant; the user message is followed by two assistant
messages. -/
theorem store_failure_breaks_alternation :
    freshChat.messages = [] ∧
      ((runTurns freshChat [("What does this report say?", storeRejected)]).messages.map
        fun m => (m.role, m.content)) =
        [("user", JVal.str "What does this report say?"),
         ("assistant", JVal.str "It reports a mild fever."),
         ("assistant", JVal.str fallbackText)] := by
  exact ⟨rfl, rfl⟩

/-- Trimming an input made of white space only leaves the empty string. -/
theorem jsTrim_of_isBlank (input : String) (h : isBlank input) : jsTrim input = "" := by
  have h1 : input.toList.dropWhile jsIsWhitespace = [] :=
    List.dropWhile_eq_nil_iff.mpr h
  unfold jsTrim
  rw [h1]
  rfl

/-- C15: while `isLoading` is `true`, `sendMessage` changes nothing: the state
(so `messages`, `inputMessage` and `conversation`) is the same, no user
message is appended and no service is called. -/
theorem sendMessage_while_loading (s : ChatState) (e : TurnEnv) (h : s.isLoading = true) :
    (sendMessage s e).state = s ∧ (sendMessage s e).calls = [] ∧
      (sendMessage s e).state.messages = s.messages ∧
      (sendMessage s e).state.inputMessage = s.inputMessage ∧
      (sendMessage s e).state.conversation = s.conversation := by
  unfold sendMessage
  cases s.selectedDocument with
  | none => simp
  | some doc => simp [h]

/-- C15 at a concrete input: a second call while a turn is in flight. -/
theorem sendMessage_while_loading_witness :
    busyChat.isLoading = true ∧
      ((sendMessage busyChat allResolved).state = busyChat ∧
        (sendMessage busyChat allResolved).calls = [] ∧
        (sendMessage busyChat allResolved).state.messages = busyChat.messages ∧
        (sendMessage busyChat allResolved).state.inputMessage = busyChat.inputMessage ∧
        (sendMessage busyChat allResolved).state.conversation = busyChat.conversation) :=
  ⟨rfl, sendMessage_while_loading busyChat allResolved rfl⟩

/-- C17: when `inputMessage` is empty or made of white space only, or no
document is selected, `sendMessage` is a no-op: the state (transcript, input,
loading flag, conversation) is unchanged and no model or store call is made. -/
theorem sendMessage_blank_or_no_document (s : ChatState) (e : TurnEnv)
    (h : isBlank s.inputMessage ∨ s.selectedDocument = none) :
    (sendMessage s e).state = s ∧ (sendMessage s e).calls = [] := by
  unfold sendMessage
  cases hdoc : s.selectedDocument with
  | none => simp
  | some doc =>
    have hb : jsTrim s.inputMessage = "" := by
      rcases h with h | h
      · exact jsTrim_of_isBlank _ h
      · rw [hdoc] at h; cases h
    simp [hb]

/-- C17 at a concrete input: only white space is typed in. -/
theorem sendMessage_blank_or_no_document_witness :
    (isBlank blankChat.inputMessage ∨ blankChat.selectedDocument = none) ∧
      ((sendMessage blankChat allResolved).state = blankChat ∧
        (sendMessage blankChat allResolved).calls = []) :=
  have hb : isBlank blankChat.inputMessage := by
    intro c hc
    have hl : blankChat.inputMessage.toList = [' ', '\t', '\n'] := rfl
    rw [hl] at hc
    simp only [List.mem_cons, List.mem_singleton, List.not_mem_nil, or_false] at hc
    rcases hc with h | h | h <;> subst h <;> decide
  ⟨Or.inl hb, sendMessage_blank_or_no_document blankChat allResolved (Or.inl hb)⟩

/-- The calls of a turn that passes its guard and whose model call resolves:
the model call, then one store write, an update of the existing conversation
or else a create. -/
theorem sendMessage_model_ok_calls (s : ChatState) (e : TurnEnv) (doc : Doc)
    (aiResponse : JVal) (hdoc : s.selectedDocument = some doc)
    (hin : jsTrim s.inputMessage ≠ "") (hload : s.isLoading = false)
    (hm : e.invokeLLM = .ok aiResponse) :
    ∃ prompt data, (sendMessage s e).calls =
      [ChatCall.invokeLLM prompt,
        match s.conversation with
        | some c => ChatCall.conversationUpdate c.id data
        | none => ChatCall.conversationCreate data] := by
  unfold sendMessage
  simp only [hdoc, hin, hload, false_or, Bool.false_eq_true, if_false, hm]
  cases s.conversation with
  | some c =>
    cases e.conversationUpdate <;> exact ⟨_, _, rfl⟩
  | none =>
    cases e.conversationCreate <;> exact ⟨_, _, rfl⟩

/-- A turn never replaces or drops an existing conversation, never calls
`Conversation.create` while one exists, and addresses every update to it. -/
theorem sendMessage_keeps_conversation (s : ChatState) (e : TurnEnv) (c : Conversation)
    (hc : s.conversation = some c) :
    (sendMessage s e).state.conversation = some c ∧
      ∀ call ∈ (sendMessage s e).calls,
        (∀ d, call ≠ ChatCall.conversationCreate d) ∧
        (∀ id d, call = ChatCall.conversationUpdate id d → id = c.id) := by
  cases hdoc : s.selectedDocument with
  | none => simp [sendMessage, hdoc, hc]
  | some doc =>
    by_cases hg : jsTrim s.inputMessage = "" ∨ s.isLoading = true
    · simp [sendMessage, hdoc, hg, hc]
    · cases hsp : e.speechSynthesis <;> cases hm : e.invokeLLM
      · simp [sendMessage, hdoc, hg, hc, hsp, hm, catchBlock]
      · cases hu : e.conversationUpdate <;>
          simp [sendMessage, hdoc, hg, hc, hsp, hm, hu, catchBlock]
      · simp [sendMessage, hdoc, hg, hc, hsp, hm, catchBlock]
      · cases hu : e.conversationUpdate <;>
          simp [sendMessage, hdoc, hg, hc, hsp, hm, hu, catchBlock]

/-- Over any sequence of turns an existing conversation stays in place, no
`Conversation.create` call is made and every update is addressed to it. -/
theorem runTurns_keeps_conversation (turns : List (String × TurnEnv)) (s : ChatState)
    (c : Conversation) (hc : s.conversation = some c) :
    (runTurns s turns).conversation = some c ∧
      ∀ call ∈ runTurnsCalls s turns,
        (∀ d, call ≠ ChatCall.conversationCreate d) ∧
        (∀ id d, call = ChatCall.conversationUpdate id d → id = c.id) := by
  induction turns generalizing s with
  | nil => exact ⟨hc, fun call hcall => by cases hcall⟩
  | cons turn rest ih =>
    obtain ⟨input, e⟩ := turn
    have hstep := sendMessage_keeps_conversation { s with inputMessage := input } e c hc
    have hrest := ih (sendMessage { s with inputMessage := input } e).state hstep.1
    refine ⟨hrest.1, ?_⟩
    intro call hcall
    simp only [runTurnsCalls, List.mem_append] at hcall
    rcases hcall with h | h
    · exact hstep.2 call h
    · exact hrest.2 call h

/-- C16 (as stated, refuted): from a document with no conversation, a first
turn whose model call succeeds but whose `Conversation.create` is rejected is
followed by a successful turn that calls `Conversation.create` again, not
`Conversation.update`. -/
theorem create_called_again_after_rejection :
    freshChat.conversation = none ∧ freshChat.messages = [] ∧
      (runTurnsCalls freshChat
          [("What does this report say?", storeRejected),
           ("What should I do?", allResolved)]).map ChatCall.kind =
        ["InvokeLLM", "Conversation.create", "InvokeLLM", "Conversation.create"] := by
  exact ⟨rfl, rfl, rfl⟩

/-- C16 (amended): from a state with no conversation, a turn that passes its
guard and whose model call succeeds calls `Conversation.create`; if the create
is rejected the conversation stays `null`; if it resolves the conversation
becomes the returned record and, over any later sequence of turns, stays that
record, no further `Conversation.create` call is made and every
`Conversation.update` carries that record's id. In any state with a
conversation, `sendMessage` leaves the conversation in place and a turn whose
model call succeeds calls `Conversation.update` with its id. -/
theorem conversation_created_once (s : ChatState) (input : String) (e : TurnEnv) (doc : Doc)
    (aiResponse : JVal) (post : List (String × TurnEnv))
    (h0 : s.conversation = none) (hdoc : s.selectedDocument = some doc)
    (hin : jsTrim input ≠ "") (hload : s.isLoading = false)
    (hm : e.invokeLLM = .ok aiResponse) :
    (∃ prompt data, (sendMessage { s with inputMessage := input } e).calls =
        [ChatCall.invokeLLM prompt, ChatCall.conversationCreate data]) ∧
      ((∃ err, e.conversationCreate = .error err) →
        (sendMessage { s with inputMessage := input } e).state.conversation = none) ∧
      (∀ c, e.conversationCreate = .ok c →
        (runTurns s ((input, e) :: post)).conversation = some c ∧
        ∀ call ∈ runTurnsCalls (sendMessage { s with inputMessage := input } e).state post,
          (∀ d, call ≠ ChatCall.conversationCreate d) ∧
          (∀ id d, call = ChatCall.conversationUpdate id d → id = c.id)) ∧
      (∀ (s2 : ChatState) (e2 : TurnEnv) (c2 : Conversation), s2.conversation = some c2 →
        (sendMessage s2 e2).state.conversation = some c2 ∧
        (∀ doc2 r2, s2.selectedDocument = some doc2 → jsTrim s2.inputMessage ≠ "" →
          s2.isLoading = false → e2.invokeLLM = .ok r2 →
          ∃ prompt data, (sendMessage s2 e2).calls =
            [ChatCall.invokeLLM prompt, ChatCall.conversationUpdate c2.id data])) := by
  have hcalls := sendMessage_model_ok_calls { s with inputMessage := input } e doc aiResponse
    hdoc hin hload hm
  have hstate : ∀ c, e.conversationCreate = .ok c →
      (sendMessage { s with inputMessage := input } e).state.conversation = some c := by
    intro c hcr
    simp [sendMessage, hdoc, hin, hload, hm, h0, hcr]
  refine ⟨?_, ?_, ?_, ?_⟩
  · simpa [h0] using hcalls
  · rintro ⟨err, herr⟩
    cases hsp : e.speechSynthesis <;>
      simp [sendMessage, hdoc, hin, hload, hm, h0, herr, hsp, catchBlock]
  · intro c hcr
    have hkeep := runTurns_keeps_conversation post
      (sendMessage { s with inputMessage := input } e).state c (hstate c hcr)
    exact ⟨by simpa [runTurns] using hkeep.1, hkeep.2⟩
  · intro s2 e2 c2 hc2
    refine ⟨(sendMessage_keeps_conversation s2 e2 c2 hc2).1, ?_⟩
    intro doc2 r2 hd2 hi2 hl2 hm2
    simpa [hc2] using sendMessage_model_ok_calls s2 e2 doc2 r2 hd2 hi2 hl2 hm2

/-- C16 (amended) at a concrete input: the first turn of `freshChat` creates
the conversation, a second turn follows. -/
theorem conversation_created_once_witness :
    freshChat.conversation = none ∧ freshChat.selectedDocument = some sampleDoc ∧
      jsTrim "What does this report say?" ≠ "" ∧ freshChat.isLoading = false ∧
      allResolved.invokeLLM = .ok (.str "Rest and drink water.") ∧
      (runTurns freshChat [("What does this report say?", allResolved),
          ("What should I do?", allResolved)]).conversation = some sampleConversation ∧
      (runTurnsCalls freshChat [("What does this report say?", allResolved),
          ("What should I do?", allResolved)]).map ChatCall.kind =
        ["InvokeLLM", "Conversation.create", "InvokeLLM", "Conversation.update"] :=
  ⟨rfl, rfl, by decide, rfl, rfl,
    ((conversation_created_once freshChat "What does this report say?" allResolved sampleDoc
      (.str "Rest and drink water.") [("What should I do?", allResolved)]
      rfl rfl (by decide) rfl rfl).2.2.1 sampleConversation rfl).1,
    rfl⟩

/-- The transcript and the input after a turn that passes its guard and whose
model call resolves: the trimmed user message and the reply follow the prior
transcript, and the fallback message follows them when the store write is
rejected. -/
theorem sendMessage_model_ok_messages (s : ChatState) (e : TurnEnv) (doc : Doc)
    (aiResponse : JVal) (hdoc : s.selectedDocument = some doc)
    (hin : jsTrim s.inputMessage ≠ "") (hload : s.isLoading = false)
    (hm : e.invokeLLM = .ok aiResponse) :
    (sendMessage s e).state.inputMessage = "" ∧
      (sendMessage s e).state.messages =
        s.messages ++
          [{ role := "user", content := .str (jsTrim s.inputMessage), timestamp := e.userTime },
           { role := "assistant", content := aiResponse, timestamp := e.assistantTime }] ++
          (match s.conversation, e.conversationUpdate, e.conversationCreate with
            | some _, .ok _, _ => []
            | none, _, .ok _ => []
            | _, _, _ =>
              [{ role := "assistant", content := .str fallbackText, timestamp := e.errorTime }]) := by
  cases hsp : e.speechSynthesis <;> cases hc : s.conversation <;>
    cases hu : e.conversationUpdate <;> cases hcr : e.conversationCreate <;>
    simp [sendMessage, hdoc, hin, hload, hm, hsp, hc, hu, hcr, catchBlock]

/-- C18 (the code at the failing input): the model call resolves and the
store write is rejected; the messages appended are three, the trimmed user
message, the reply, and the fallback message, not the two of the claim. The
input is reset to the empty string. -/
theorem store_failure_reply_then_fallback :
    ((sendMessage paddedChat storeRejected).state.messages.map
        fun m => (m.role, m.content)) =
        [("user", JVal.str "What does this report say?"),
         ("assistant", JVal.str "It reports a mild fever."),
         ("assistant", JVal.str
           "I apologize, but I'm having trouble processing your message right now. Please try again.")] ∧
      (sendMessage paddedChat storeRejected).state.messages.length =
        paddedChat.messages.length + 3 ∧
      (sendMessage paddedChat storeRejected).state.inputMessage = "" := by
  exact ⟨rfl, rfl, rfl⟩

/-- C19: when a call passes its guard and `InvokeLLM` rejects, whatever the
error, the transcript becomes the prior transcript followed by the trimmed
user message and an assistant message whose content is the fixed apology text;
the error raised appears nowhere in it. -/
theorem sendMessage_model_failure (s : ChatState) (e : TurnEnv) (doc : Doc) (err : String)
    (hdoc : s.selectedDocument = some doc) (hin : jsTrim s.inputMessage ≠ "")
    (hload : s.isLoading = false) (hm : e.invokeLLM = .error err) :
    (sendMessage s e).state.messages =
      s.messages ++
        [{ role := "user", content := .str (jsTrim s.inputMessage), timestamp := e.userTime },
         { role := "assistant",
           content := .str
             "I apologize, but I'm having trouble processing your message right now. Please try again.",
           timestamp := e.errorTime }] := by
  cases hsp : e.speechSynthesis <;>
    simp [sendMessage, hdoc, hin, hload, hm, hsp, catchBlock, fallbackText]

/-- C19 at a concrete input: the model call of the first turn is rejected. -/
theorem sendMessage_model_failure_witness :
    freshChat.selectedDocument = some sampleDoc ∧ jsTrim freshChat.inputMessage ≠ "" ∧
      freshChat.isLoading = false ∧ modelRejected.invokeLLM = .error "model unavailable" ∧
      (sendMessage freshChat modelRejected).state.messages =
        freshChat.messages ++
          [{ role := "user", content := .str (jsTrim freshChat.inputMessage),
             timestamp := modelRejected.userTime },
           { role := "assistant",
             content := .str
               "I apologize, but I'm having trouble processing your message right now. Please try again.",
             timestamp := modelRejected.errorTime }] :=
  ⟨rfl, by decide, rfl, rfl,
    sendMessage_model_failure freshChat modelRejected sampleDoc "model unavailable"
      rfl (by decide) rfl rfl⟩

/-- C20 (as stated, refuted): when the model call is rejected the fallback
message is appended but the turn makes no call to the Conversation store; its
only call is the model call. -/
theorem fallback_not_persisted :
    (sendMessage freshChat modelRejected).calls.map ChatCall.kind = ["InvokeLLM"] ∧
      ((sendMessage freshChat modelRejected).state.messages.map
        fun m => (m.role, m.content)) =
        [("user", JVal.str "What does this report say?"),
         ("assistant", JVal.str fallbackText)] := by
  exact ⟨rfl, rfl⟩

/-- C20 (amended): when a call passes its guard and the model call is
rejected, the fallback assistant message is appended to the transcript, but
that turn writes nothing to the Conversation store: the model call is its
only call, and the conversation is left as it was. -/
theorem model_failure_makes_no_store_call (s : ChatState) (e : TurnEnv) (doc : Doc)
    (err : String) (hdoc : s.selectedDocument = some doc)
    (hin : jsTrim s.inputMessage ≠ "") (hload : s.isLoading = false)
    (hm : e.invokeLLM = .error err) :
    (sendMessage s e).state.messages.getLast? =
        some { role := "assistant", content := .str fallbackText, timestamp := e.errorTime } ∧
      (∃ prompt, (sendMessage s e).calls = [ChatCall.invokeLLM prompt]) ∧
      (∀ call ∈ (sendMessage s e).calls,
        (∀ d, call ≠ ChatCall.conversationCreate d) ∧
        (∀ id d, call ≠ ChatCall.conversationUpdate id d)) ∧
      (sendMessage s e).state.conversation = s.conversation := by
  cases hsp : e.speechSynthesis <;>
    simp [sendMessage, hdoc, hin, hload, hm, hsp, catchBlock]

/-- C20 (amended) at a concrete input: the model call of the first turn is
rejected. -/
theorem model_failure_makes_no_store_call_witness :
    freshChat.selectedDocument = some sampleDoc ∧ jsTrim freshChat.inputMessage ≠ "" ∧
      freshChat.isLoading = false ∧ modelRejected.invokeLLM = .error "model unavailable" ∧
      ((sendMessage freshChat modelRejected).state.messages.getLast? =
          some { role := "assistant", content := .str fallbackText,
                 timestamp := modelRejected.errorTime } ∧
        (∃ prompt, (sendMessage freshChat modelRejected).calls = [ChatCall.invokeLLM prompt]) ∧
        (∀ call ∈ (sendMessage freshChat modelRejected).calls,
          (∀ d, call ≠ ChatCall.conversationCreate d) ∧
          (∀ id d, call ≠ ChatCall.conversationUpdate id d)) ∧
        (sendMessage freshChat modelRejected).state.conversation = freshChat.conversation) :=
  ⟨rfl, by decide, rfl, rfl,
    model_failure_makes_no_store_call freshChat modelRejected sampleDoc "model unavailable"
      rfl (by decide) rfl rfl⟩

/-- The model call of a turn that passes its guard: it is the first call, and
its prompt is built from the selected document, the prior transcript, the
trimmed input and the selected language. -/
theorem sendMessage_first_call (s : ChatState) (e : TurnEnv) (doc : Doc)
    (hdoc : s.selectedDocument = some doc) (hin : jsTrim s.inputMessage ≠ "")
    (hload : s.isLoading = false) :
    (sendMessage s e).calls.head? =
      some (ChatCall.invokeLLM (chatPrompt doc s.messages
        { role := "user", content := .str (jsTrim s.inputMessage), timestamp := e.userTime }
        s.language)) := by
  cases hsp : e.speechSynthesis <;> cases hm : e.invokeLLM <;> cases hc : s.conversation <;>
    cases hu : e.conversationUpdate <;> cases hcr : e.conversationCreate <;>
    simp [sendMessage, hdoc, hin, hload, hm, hsp, hc, hu, hcr, catchBlock]

/-- A turn leaves the document list and the selected document in place, and
ends with `isLoading` `false` when it passed its guard. -/
theorem sendMessage_frame (s : ChatState) (e : TurnEnv) :
    (sendMessage s e).state.documents = s.documents ∧
      (sendMessage s e).state.selectedDocument = s.selectedDocument ∧
      (sendMessage s e).state.language = s.language ∧
      (∀ doc, s.selectedDocument = some doc → jsTrim s.inputMessage ≠ "" →
        s.isLoading = false → (sendMessage s e).state.isLoading = false) := by
  cases hdoc : s.selectedDocument with
  | none => simp [sendMessage, hdoc]
  | some doc =>
    by_cases hg : jsTrim s.inputMessage = "" ∨ s.isLoading = true
    · refine ⟨by simp [sendMessage, hdoc, hg], by simp [sendMessage, hdoc, hg],
        by simp [sendMessage, hdoc, hg], ?_⟩
      intro d _ hin hload
      rcases hg with h | h
      · exact absurd h hin
      · rw [hload] at h; cases h
    · cases hsp : e.speechSynthesis <;> cases hm : e.invokeLLM <;>
        cases hc : s.conversation <;> cases hu : e.conversationUpdate <;>
        cases hcr : e.conversationCreate <;>
        simp [sendMessage, hdoc, hg, hm, hsp, hc, hu, hcr, catchBlock]

/-- C21: on a turn that passes its guard and whose model call succeeds, the
calls are the model call followed by exactly one store write,
`Conversation.update` on the existing conversation's id when there is a
conversation and `Conversation.create` otherwise; the record written has the
selected document's id, the whole prior transcript followed by the new user
and assistant messages, and the currently selected language. -/
theorem sendMessage_store_write (s : ChatState) (e : TurnEnv) (doc : Doc) (aiResponse : JVal)
    (hdoc : s.selectedDocument = some doc) (hin : jsTrim s.inputMessage ≠ "")
    (hload : s.isLoading = false) (hm : e.invokeLLM = .ok aiResponse) :
    ∃ prompt,
      (∀ c, s.conversation = some c →
        (sendMessage s e).calls =
          [ChatCall.invokeLLM prompt,
           ChatCall.conversationUpdate c.id
            { document_id := doc.id,
              messages := s.messages ++
                [{ role := "user", content := .str (jsTrim s.inputMessage),
                   timestamp := e.userTime },
                 { role := "assistant", content := aiResponse, timestamp := e.assistantTime }],
              language := s.language }]) ∧
      (s.conversation = none →
        (sendMessage s e).calls =
          [ChatCall.invokeLLM prompt,
           ChatCall.conversationCreate
            { document_id := doc.id,
              messages := s.messages ++
                [{ role := "user", content := .str (jsTrim s.inputMessage),
                   timestamp := e.userTime },
                 { role := "assistant", content := aiResponse, timestamp := e.assistantTime }],
              language := s.language }]) := by
  refine ⟨chatPrompt doc s.messages
    { role := "user", content := .str (jsTrim s.inputMessage), timestamp := e.userTime }
    s.language, ?_, ?_⟩
  · intro c hc
    cases hsp : e.speechSynthesis <;> cases hu : e.conversationUpdate <;>
      simp [sendMessage, hdoc, hin, hload, hm, hsp, hc, hu, catchBlock]
  · intro hc
    cases hsp : e.speechSynthesis <;> cases hcr : e.conversationCreate <;>
      simp [sendMessage, hdoc, hin, hload, hm, hsp, hc, hcr, catchBlock]

/-- C21 at a concrete input: a turn on a loaded conversation after the
language was switched to Hindi. -/
theorem sendMessage_store_write_witness :
    ({ loadedChat with inputMessage := "What should I do?" } : ChatState).selectedDocument =
        some sampleDoc ∧
      jsTrim "What should I do?" ≠ "" ∧ loadedChat.isLoading = false ∧
      allResolved.invokeLLM = .ok (.str "Rest and drink water.") ∧
      loadedChat.conversation = some storedConversation ∧
      ∃ prompt,
        (sendMessage { loadedChat with inputMessage := "What should I do?" } allResolved).calls =
          [ChatCall.invokeLLM prompt,
           ChatCall.conversationUpdate "conv-1"
            { document_id := "doc-1",
              messages := storedMessages ++
                [{ role := "user", content := .str "What should I do?",
                   timestamp := "2025-01-01T10:05:00.000Z" },
                 { role := "assistant", content := .str "Rest and drink water.",
                   timestamp := "2025-01-01T10:05:02.000Z" }],
              language := "hindi" }] :=
  ⟨rfl, by decide, rfl, rfl, rfl,
    (sendMessage_store_write { loadedChat with inputMessage := "What should I do?" } allResolved
      sampleDoc (.str "Rest and drink water.") rfl (by decide) rfl rfl).elim
      fun prompt h => ⟨prompt, h.1 storedConversation rfl⟩⟩

/-- The language name put in the chat prompt, case by case: the five known
languages, then the keys found on `Object.prototype`, then the fallback. -/
theorem languageName_cases (language : String) :
    languageName language =
      if language = "english" then "English"
      else if language = "hindi" then "Hindi"
      else if language = "tamil" then "Tamil"
      else if language = "bengali" then "Bengali"
      else if language = "malayalam" then "Malayalam"
      else if language = "constructor" then "Object"
      else if language ∈ ["__defineGetter__", "__defineSetter__", "hasOwnProperty",
          "__lookupGetter__", "__lookupSetter__", "isPrototypeOf", "propertyIsEnumerable",
          "toString", "valueOf", "toLocaleString"] then language
      else "the specified language" := by
  by_cases h0 : language = "english"
  · subst h0; rfl
  by_cases h1 : language = "hindi"
  · subst h1; rfl
  by_cases h2 : language = "tamil"
  · subst h2; rfl
  by_cases h3 : language = "bengali"
  · subst h3; rfl
  by_cases h4 : language = "malayalam"
  · subst h4; rfl
  by_cases h5 : language = "constructor"
  · subst h5; rfl
  by_cases h6 : language = "__defineGetter__"
  · subst h6; rfl
  by_cases h7 : language = "__defineSetter__"
  · subst h7; rfl
  by_cases h8 : language = "hasOwnProperty"
  · subst h8; rfl
  by_cases h9 : language = "__lookupGetter__"
  · subst h9; rfl
  by_cases h10 : language = "__lookupSetter__"
  · subst h10; rfl
  by_cases h11 : language = "isPrototypeOf"
  · subst h11; rfl
  by_cases h12 : language = "propertyIsEnumerable"
  · subst h12; rfl
  by_cases h13 : language = "toString"
  · subst h13; rfl
  by_cases h14 : language = "valueOf"
  · subst h14; rfl
  by_cases h15 : language = "toLocaleString"
  · subst h15; rfl
  have b0 : (language == "english") = false := by simpa using h0
  have b1 : (language == "hindi") = false := by simpa using h1
  have b2 : (language == "tamil") = false := by simpa using h2
  have b3 : (language == "bengali") = false := by simpa using h3
  have b4 : (language == "malayalam") = false := by simpa using h4
  have b5 : (language == "constructor") = false := by simpa using h5
  have b6 : (language == "__defineGetter__") = false := by simpa using h6
  have b7 : (language == "__defineSetter__") = false := by simpa using h7
  have b8 : (language == "hasOwnProperty") = false := by simpa using h8
  have b9 : (language == "__lookupGetter__") = false := by simpa using h9
  have b10 : (language == "__lookupSetter__") = false := by simpa using h10
  have b11 : (language == "isPrototypeOf") = false := by simpa using h11
  have b12 : (language == "propertyIsEnumerable") = false := by simpa using h12
  have b13 : (language == "toString") = false := by simpa using h13
  have b14 : (language == "valueOf") = false := by simpa using h14
  have b15 : (language == "toLocaleString") = false := by simpa using h15
  simp [languageName, languageMap, objectPrototypeFunctions, List.lookup, h0, h1, h2, h3, h4, h5, h6, h7, h8, h9, h10, h11, h12, h13, h14, h15, b0, b1, b2, b3, b4, b5, b6, b7, b8, b9, b10, b11, b12, b13, b14, b15]

/-- C22 (as stated, refuted): with the language `constructor`, loaded from a
stored conversation and not one of the five known, the prompt asks for a
response in `Object`, not in `the specified language`. -/
theorem prompt_names_object_for_constructor :
    constructorChat.language = "constructor" ∧
      constructorChat.language ∉ ["english", "hindi", "tamil", "bengali", "malayalam"] ∧
      (sendMessage constructorChat allResolved).calls.head? = some (ChatCall.invokeLLM (
        "\nYou are an expert document analyst helping users understand their documents. \n" ++
        "The user has uploaded a medical document titled \"report.pdf\".\n" ++
        "\nDocument content:\nPatient has mild fever...\n" ++
        "\nPrevious conversation:\n\n" ++
        "\nUser question: What is this?\n" ++
        "\nPlease provide a helpful, accurate response in Object. \n" ++
        "Keep the language simple and avoid technical jargon. If the question is not related to the document, politely redirect them back to the document content.\n")) := by
  have hstate : constructorChat =
      { ChatState.init with documents := [sampleDoc], selectedDocument := some sampleDoc,
                            conversation := some { id := "conv-9", document_id := "doc-1",
                                                   messages := none, language := "constructor" },
                            language := "constructor", inputMessage := "What is this?" } := rfl
  have ht : jsTrim "What is this?" = "What is this?" := by decide
  refine ⟨rfl, by decide, ?_⟩
  rw [sendMessage_first_call constructorChat allResolved sampleDoc rfl (by decide) rfl]
  rw [hstate]
  simp [ht, chatPrompt, languageName_cases, messageLine, ChatState.init, sampleDoc, JVal.toStr,
    JVal.or, JVal.truthy, String.intercalate]

/-- C22 (amended): the prompt of the model call of a turn that passes its
guard is the fixed text with, in this order, the document's category and
title; the document's `original_text` when it is truthy (a non-empty text) and
otherwise its `simplified_summary`; one line `role: content` per prior
message, in transcript order, the new user message not among them; the trimmed
input as the question; and for the language the name of the selected language
when it is one of the five known, `Object` for `constructor`, the language
itself when it is the name of another function inherited from
`Object.prototype`, and `the specified language` in every other case. -/
theorem chat_prompt_contents (s : ChatState) (e : TurnEnv) (doc : Doc)
    (hdoc : s.selectedDocument = some doc) (hin : jsTrim s.inputMessage ≠ "")
    (hload : s.isLoading = false) :
    (sendMessage s e).calls.head? = some (ChatCall.invokeLLM (
      "\nYou are an expert document analyst helping users understand their documents. \n" ++
      "The user has uploaded a " ++ doc.category ++ " document titled \"" ++ doc.title ++ "\".\n" ++
      "\nDocument content:\n" ++
      (if doc.original_text.truthy then doc.original_text else doc.simplified_summary).toStr ++
      "\n" ++
      "\nPrevious conversation:\n" ++
      "\n".intercalate (s.messages.map fun m => m.role ++ ": " ++ m.content.toStr) ++ "\n" ++
      "\nUser question: " ++ jsTrim s.inputMessage ++ "\n" ++
      "\nPlease provide a helpful, accurate response in " ++
      (if s.language = "english" then "English"
        else if s.language = "hindi" then "Hindi"
        else if s.language = "tamil" then "Tamil"
        else if s.language = "bengali" then "Bengali"
        else if s.language = "malayalam" then "Malayalam"
        else if s.language = "constructor" then "Object"
        else if s.language ∈ ["__defineGetter__", "__defineSetter__", "hasOwnProperty",
            "__lookupGetter__", "__lookupSetter__", "isPrototypeOf", "propertyIsEnumerable",
            "toString", "valueOf", "toLocaleString"] then s.language
        else "the specified language") ++ ". \n" ++
      "Keep the language simple and avoid technical jargon. If the question is not related to the document, politely redirect them back to the document content.\n")) := by
  rw [sendMessage_first_call s e doc hdoc hin hload]
  have hmap : (s.messages.map fun m => m.role ++ ": " ++ m.content.toStr) =
      s.messages.map messageLine := rfl
  have hq : (JVal.str (jsTrim s.inputMessage)).toStr = jsTrim s.inputMessage := by
    simp [JVal.toStr]
  have hor : (if doc.original_text.truthy then doc.original_text else doc.simplified_summary) =
      doc.original_text.or doc.simplified_summary := rfl
  rw [hmap, hor, ← languageName_cases]
  simp only [chatPrompt, hq]

/-- C22 (amended) at a concrete input: a question on a loaded conversation in
Hindi. -/
theorem chat_prompt_contents_witness :
    ({ loadedChat with inputMessage := " What should I do? " } : ChatState).selectedDocument =
        some sampleDoc ∧
      jsTrim " What should I do? " ≠ "" ∧ loadedChat.isLoading = false ∧
      (sendMessage { loadedChat with inputMessage := " What should I do? " }
          allResolved).calls.head? = some (ChatCall.invokeLLM (
        "\nYou are an expert document analyst helping users understand their documents. \n" ++
        "The user has uploaded a medical document titled \"report.pdf\".\n" ++
        "\nDocument content:\nPatient has mild fever...\n" ++
        "\nPrevious conversation:\nuser: Is it serious?\nassistant: No, it is mild.\n" ++
        "\nUser question: What should I do?\n" ++
        "\nPlease provide a helpful, accurate response in Hindi. \n" ++
        "Keep the language simple and avoid technical jargon. If the question is not related to the document, politely redirect them back to the document content.\n")) := by
  have ht : jsTrim " What should I do? " = "What should I do?" := by decide
  have h := chat_prompt_contents { loadedChat with inputMessage := " What should I do? " }
    allResolved sampleDoc rfl (by decide) rfl
  refine ⟨rfl, by decide, rfl, ?_⟩
  rw [h]
  simp [ht, loadedChat, sampleDoc, storedMessages, JVal.toStr, JVal.truthy, String.intercalate,
    String.intercalate.go]

/-- C23: when the store resolves with at least one conversation,
`loadConversation` takes the first: `conversation` becomes it, `messages` its
message list (the empty list if it has none) and `language` its language
(`english` if it has none); when the store resolves with no conversation,
`conversation` becomes `null`, `messages` the empty list and `language` keeps
its value. Nothing else changes. -/
theorem loadConversation_resolved (s : ChatState) (documentId : String)
    (store : ConversationLookup) :
    (∀ first rest, store documentId = .ok (first :: rest) →
      (loadConversation s documentId store).conversation = some first ∧
      (loadConversation s documentId store).messages =
        (match first.messages with
          | some messages => messages
          | none => []) ∧
      (loadConversation s documentId store).language =
        (if first.language = "" then "english" else first.language)) ∧
    (store documentId = .ok [] →
      (loadConversation s documentId store).conversation = none ∧
      (loadConversation s documentId store).messages = [] ∧
      (loadConversation s documentId store).language = s.language) ∧
    (loadConversation s documentId store).selectedDocument = s.selectedDocument ∧
    (loadConversation s documentId store).documents = s.documents ∧
    (loadConversation s documentId store).inputMessage = s.inputMessage ∧
    (loadConversation s documentId store).isLoading = s.isLoading := by
  unfold loadConversation
  cases h : store documentId with
  | error err => simp
  | ok conversations =>
    cases conversations with
    | nil => simp
    | cons first rest =>
      cases hm : first.messages <;> simp [hm]

/-- C23 at concrete inputs: `sampleStore` holds a conversation for `doc-1`
and none for `doc-2`. -/
theorem loadConversation_resolved_witness :
    sampleStore "doc-1" = .ok [storedConversation] ∧ sampleStore "doc-2" = .ok [] ∧
      ((loadConversation freshChat "doc-1" sampleStore).conversation = some storedConversation ∧
        (loadConversation freshChat "doc-1" sampleStore).messages = storedMessages ∧
        (loadConversation freshChat "doc-1" sampleStore).language = "hindi") ∧
      ((loadConversation loadedChat "doc-2" sampleStore).conversation = none ∧
        (loadConversation loadedChat "doc-2" sampleStore).messages = [] ∧
        (loadConversation loadedChat "doc-2" sampleStore).language = loadedChat.language) :=
  ⟨rfl, rfl,
    (loadConversation_resolved freshChat "doc-1" sampleStore).1 storedConversation [] rfl,
    (loadConversation_resolved loadedChat "doc-2" sampleStore).2.1 rfl⟩

/-- When the lookup resolves and the store answers with conversations of the
document asked for, selecting a listed document leaves a state that belongs
to it. -/
theorem handleDocumentSelect_resolved (s : ChatState) (doc : Doc) (store : ConversationLookup)
    (conversations : List Conversation)
    (hfind : (s.documents.find? fun d => d.id = doc.id) = some doc)
    (hstore : store doc.id = .ok conversations)
    (hfilter : ∀ c ∈ conversations, c.document_id = doc.id) :
    (handleDocumentSelect s doc.id store).selectedDocument = some doc ∧
      (((handleDocumentSelect s doc.id store).conversation = none ∧
          (handleDocumentSelect s doc.id store).messages = []) ∨
        ∃ c, (handleDocumentSelect s doc.id store).conversation = some c ∧
          c.document_id = doc.id ∧
          (handleDocumentSelect s doc.id store).messages = c.messages.getD []) := by
  unfold handleDocumentSelect
  rw [hfind]
  unfold loadConversation
  simp only [hstore]
  cases conversations with
  | nil => exact ⟨rfl, Or.inl ⟨rfl, rfl⟩⟩
  | cons first rest =>
    exact ⟨rfl, Or.inr ⟨first, rfl, hfilter first (List.mem_cons_self _ _), rfl⟩⟩

/-- C24 (the code at the failing input): with the conversation of `doc-1`
loaded, selecting the listed document `doc-2` while the conversation lookup is
rejected leaves `doc-2` selected together with the conversation and the
transcript of `doc-1`. -/
theorem stale_conversation_after_rejected_lookup :
    loadedChat.selectedDocument = some sampleDoc ∧ otherDoc ∈ loadedChat.documents ∧
      (handleDocumentSelect loadedChat "doc-2" lookupRejected).selectedDocument =
        some otherDoc ∧
      (handleDocumentSelect loadedChat "doc-2" lookupRejected).conversation =
        some storedConversation ∧
      storedConversation.document_id = "doc-1" ∧
      (handleDocumentSelect loadedChat "doc-2" lookupRejected).messages = storedMessages ∧
      storedMessages.length = 2 := by
  refine ⟨rfl, ?_, rfl, rfl, rfl, rfl, rfl⟩
  simp [loadedChat]

/-- C25: a `sendMessage` call that passed its guard ends with `isLoading`
`false` whatever the model call and the store write did, keeps the selected
document, and the next call with a non-blank input passes its guard and calls
the model. -/
theorem sendMessage_ends_not_loading (s : ChatState) (e : TurnEnv) (doc : Doc)
    (hdoc : s.selectedDocument = some doc) (hin : jsTrim s.inputMessage ≠ "")
    (hload : s.isLoading = false) :
    (sendMessage s e).state.isLoading = false ∧
      (sendMessage s e).state.selectedDocument = some doc ∧
      ∀ (input : String) (e2 : TurnEnv), jsTrim input ≠ "" →
        ∃ prompt,
          (sendMessage { (sendMessage s e).state with inputMessage := input } e2).calls.head? =
            some (ChatCall.invokeLLM prompt) := by
  obtain ⟨-, hsel, -, hl⟩ := sendMessage_frame s e
  have h1 := hl doc hdoc hin hload
  have h2 : (sendMessage s e).state.selectedDocument = some doc := by rw [hsel, hdoc]
  refine ⟨h1, h2, ?_⟩
  intro input e2 hinput
  exact ⟨_, sendMessage_first_call { (sendMessage s e).state with inputMessage := input } e2 doc
    h2 hinput h1⟩

/-- C25 at a concrete input: a turn whose store write is rejected, then a
second question. -/
theorem sendMessage_ends_not_loading_witness :
    freshChat.selectedDocument = some sampleDoc ∧ jsTrim freshChat.inputMessage ≠ "" ∧
      freshChat.isLoading = false ∧
      ((sendMessage freshChat storeRejected).state.isLoading = false ∧
        (sendMessage freshChat storeRejected).state.selectedDocument = some sampleDoc ∧
        ∀ (input : String) (e2 : TurnEnv), jsTrim input ≠ "" →
          ∃ prompt,
            (sendMessage { (sendMessage freshChat storeRejected).state with
                inputMessage := input } e2).calls.head? = some (ChatCall.invokeLLM prompt)) :=
  ⟨rfl, by decide, rfl,
    sendMessage_ends_not_loading freshChat storeRejected sampleDoc rfl (by decide) rfl⟩

/-- Loading a conversation leaves the document list and the selected document
in place. -/
theorem loadConversation_frame (s : ChatState) (documentId : String)
    (store : ConversationLookup) :
    (loadConversation s documentId store).documents = s.documents ∧
      (loadConversation s documentId store).selectedDocument = s.selectedDocument := by
  unfold loadConversation
  cases store documentId with
  | error err => exact ⟨rfl, rfl⟩
  | ok conversations =>
    cases conversations with
    | nil => exact ⟨rfl, rfl⟩
    | cons first rest => exact ⟨rfl, rfl⟩

/-- Selecting a listed document keeps the completed-only property. -/
theorem CompletedOnly_select (s : ChatState) (documentId : String) (store : ConversationLookup)
    (h : CompletedOnly s) :
    CompletedOnly
      (match s.documents.find? fun d => d.id = documentId with
        | some doc => loadConversation { s with selectedDocument := some doc } documentId store
        | none => s) := by
  cases hfind : s.documents.find? fun d => d.id = documentId with
  | none => exact h
  | some doc =>
    have hmem : doc ∈ s.documents := List.mem_of_find?_eq_some hfind
    obtain ⟨hdocs, hsel⟩ :=
      loadConversation_frame { s with selectedDocument := some doc } documentId store
    refine ⟨?_, ?_⟩
    · intro d hd
      simp only at hd
      rw [hdocs] at hd
      exact h.1 d hd
    · intro d hd
      simp only at hd
      rw [hsel] at hd
      cases hd
      exact h.1 doc hmem

/-- Every event keeps the completed-only property. -/
theorem CompletedOnly_step (s : ChatState) (ev : ChatEvent) (h : CompletedOnly s) :
    CompletedOnly (s.step ev) := by
  cases ev with
  | initialData docsData =>
    cases docsData with
    | error err => exact h
    | ok docs =>
      refine ⟨?_, h.2⟩
      intro d hd
      simp only [ChatState.step, loadInitialData, List.mem_filter, decide_eq_true_eq] at hd
      exact hd.2
  | documentParam param store =>
    cases param with
    | none => exact h
    | some documentId =>
      simp only [ChatState.step, applyDocumentParam]
      split
      · exact CompletedOnly_select s documentId store h
      · exact h
  | clickDocument documentId store => exact CompletedOnly_select s documentId store h
  | selectLanguage i => exact h
  | typeInput text => exact h
  | send e =>
    obtain ⟨hdocs, hsel, -, -⟩ := sendMessage_frame s e
    refine ⟨?_, ?_⟩
    · intro d hd
      simp only [ChatState.step] at hd
      rw [hdocs] at hd
      exact h.1 d hd
    · intro d hd
      simp only [ChatState.step] at hd
      rw [hsel] at hd
      exact h.2 d hd

/-- In every reachable state the completed-only property holds. -/
theorem CompletedOnly_run (events : List ChatEvent) (s : ChatState) (h : CompletedOnly s) :
    CompletedOnly (s.run events) := by
  induction events generalizing s with
  | nil => exact h
  | cons ev rest ih => exact ih (s.step ev) (CompletedOnly_step s ev h)

/-- C26: the document list set by `loadInitialData` is the store's list
without the documents whose `processing_status` is not `completed`, the rest
in their order; and in every state reachable on the chat page (document list
arriving, `document` URL parameter, clicks on documents, language choice,
typing, sending) the selected document, if any, has `processing_status`
`completed`. -/
theorem selected_document_completed (events : List ChatEvent) (doc : Doc)
    (h : (ChatState.init.run events).selectedDocument = some doc) :
    doc.processing_status = "completed" ∧
      ∀ (s : ChatState) (docs : List Doc),
        (loadInitialData s (.ok docs)).documents =
            docs.filter (fun d => d.processing_status = "completed") ∧
          (loadInitialData s (.ok docs)).documents.Sublist docs ∧
          ∀ d, d ∈ (loadInitialData s (.ok docs)).documents ↔
            d ∈ docs ∧ d.processing_status = "completed" := by
  refine ⟨?_, ?_⟩
  · have hinit : CompletedOnly ChatState.init :=
      ⟨fun d hd => (by cases hd), fun d hd => (by cases hd)⟩
    exact (CompletedOnly_run events ChatState.init hinit).2 doc h
  · intro s docs
    refine ⟨rfl, List.filter_sublist _, ?_⟩
    intro d
    simp [loadInitialData, List.mem_filter]

/-- C26 at a concrete input: the store lists a document still in processing
between two completed ones; the second completed one is clicked. -/
theorem selected_document_completed_witness :
    (ChatState.init.run
        [.initialData (.ok [sampleDoc, pendingDoc, otherDoc]),
         .clickDocument "doc-2" sampleStore]).selectedDocument = some otherDoc ∧
      (ChatState.init.run
        [.initialData (.ok [sampleDoc, pendingDoc, otherDoc]),
         .clickDocument "doc-3" sampleStore]).selectedDocument = none ∧
      otherDoc.processing_status = "completed" :=
  ⟨rfl, rfl,
    (selected_document_completed
      [.initialData (.ok [sampleDoc, pendingDoc, otherDoc]), .clickDocument "doc-2" sampleStore]
      otherDoc rfl).1⟩

/-- C28: for every state and every outcome of the model call and of the store
write, the transcript after `sendMessage` is the transcript before it followed
by the messages the call appended: nothing that was there is altered,
reordered or removed. -/
theorem sendMessage_extends_transcript (s : ChatState) (e : TurnEnv) :
    ∃ appended, (sendMessage s e).state.messages = s.messages ++ appended := by
  cases hdoc : s.selectedDocument with
  | none => exact ⟨[], by simp [sendMessage, hdoc]⟩
  | some doc =>
    by_cases hg : jsTrim s.inputMessage = "" ∨ s.isLoading = true
    · exact ⟨[], by simp [sendMessage, hdoc, hg]⟩
    · cases hsp : e.speechSynthesis <;> cases hm : e.invokeLLM <;>
        cases hc : s.conversation <;> cases hu : e.conversationUpdate <;>
        cases hcr : e.conversationCreate <;>
        simp [sendMessage, hdoc, hg, hm, hsp, hc, hu, hcr, catchBlock]

/-- Running two sequences of turns one after the other. -/
theorem runTurns_append (s : ChatState) (pre post : List (String × TurnEnv)) :
    runTurns s (pre ++ post) = runTurns (runTurns s pre) post := by
  induction pre generalizing s with
  | nil => rfl
  | cons turn rest ih =>
    obtain ⟨input, e⟩ := turn
    simp only [List.cons_append, runTurns]
    exact ih _

/-- C29: after any earlier turns, on a turn that passes its guard and whose
model call and store write both succeed, exactly one message list is written
to the Conversation store and it equals the whole local transcript after the
turn; that transcript starts with everything the earlier turns left in it,
the user and fallback messages of failed turns included. -/
theorem written_messages_are_transcript (s0 : ChatState) (pre : List (String × TurnEnv))
    (input : String) (e : TurnEnv) (doc : Doc) (aiResponse : JVal)
    (hdoc : (runTurns s0 pre).selectedDocument = some doc) (hin : jsTrim input ≠ "")
    (hload : (runTurns s0 pre).isLoading = false)
    (hm : e.invokeLLM = .ok aiResponse)
    (hupdate : (runTurns s0 pre).conversation ≠ none → e.conversationUpdate = .ok ())
    (hcreate : (runTurns s0 pre).conversation = none → ∃ c, e.conversationCreate = .ok c) :
    (sendMessage { runTurns s0 pre with inputMessage := input } e).calls.filterMap
        ChatCall.writtenMessages = [(runTurns s0 (pre ++ [(input, e)])).messages] ∧
      ∃ appended,
        (runTurns s0 (pre ++ [(input, e)])).messages = (runTurns s0 pre).messages ++ appended := by
  rw [runTurns_append]
  simp only [runTurns]
  refine ⟨?_, ?_⟩
  · cases hc : (runTurns s0 pre).conversation with
    | none =>
      obtain ⟨c, hcr⟩ := hcreate hc
      cases hsp : e.speechSynthesis <;>
        simp [sendMessage, hdoc, hin, hload, hm, hsp, hc, hcr, ChatCall.writtenMessages]
    | some c =>
      have hu := hupdate (by rw [hc]; simp)
      cases hsp : e.speechSynthesis <;>
        simp [sendMessage, hdoc, hin, hload, hm, hsp, hc, hu, ChatCall.writtenMessages]
  · cases hc : (runTurns s0 pre).conversation with
    | none =>
      obtain ⟨c, hcr⟩ := hcreate hc
      cases hsp : e.speechSynthesis <;>
        simp [sendMessage, hdoc, hin, hload, hm, hsp, hc, hcr]
    | some c =>
      have hu := hupdate (by rw [hc]; simp)
      cases hsp : e.speechSynthesis <;>
        simp [sendMessage, hdoc, hin, hload, hm, hsp, hc, hu]

/-- C29 at a concrete input: a first turn whose model call is rejected, then a
turn that succeeds; the list written holds the four messages. -/
theorem written_messages_are_transcript_witness :
    (runTurns freshChat [("What does this report say?", modelRejected)]).selectedDocument =
        some sampleDoc ∧
      jsTrim "What should I do?" ≠ "" ∧
      (runTurns freshChat [("What does this report say?", modelRejected)]).isLoading = false ∧
      allResolved.invokeLLM = .ok (.str "Rest and drink water.") ∧
      ((sendMessage { runTurns freshChat [("What does this report say?", modelRejected)] with
            inputMessage := "What should I do?" } allResolved).calls.filterMap
          ChatCall.writtenMessages =
        [(runTurns freshChat ([("What does this report say?", modelRejected)] ++
            [("What should I do?", allResolved)])).messages]) ∧
      ((runTurns freshChat ([("What does this report say?", modelRejected)] ++
          [("What should I do?", allResolved)])).messages.map fun m => (m.role, m.content)) =
        [("user", JVal.str "What does this report say?"),
         ("assistant", JVal.str fallbackText),
         ("user", JVal.str "What should I do?"),
         ("assistant", JVal.str "Rest and drink water.")] :=
  ⟨rfl, by decide, rfl, rfl,
    (written_messages_are_transcript freshChat [("What does this report say?", modelRejected)]
      "What should I do?" allResolved sampleDoc (.str "Rest and drink water.") rfl (by decide)
      rfl rfl (fun _ => rfl) (fun _ => ⟨sampleConversation, rfl⟩)).1,
    rfl⟩

end Chat

/-! ## Properties of the library page -/

namespace Library

/-- C30: `filterDocuments` sets `filteredDocuments` to the documents that
satisfy all active filters, in their original order (it is the document list
filtered in one pass by `satisfiesFilters`), where a document satisfies the
filters exactly when (the query is empty, or its lower-cased title or its
lower-cased summary contains the lower-cased query) and (the category selector
is `all` or equals its category) and (the status selector is `all` or equals
its status); with an empty query and both selectors `all` the result is the
whole list. The other state cells keep their values. -/
theorem filterDocuments_spec (toLowerCase : String → String) (s : LibraryState) :
    (filterDocuments toLowerCase s).filteredDocuments =
        s.documents.filter (satisfiesFilters toLowerCase s) ∧
      (∀ doc, satisfiesFilters toLowerCase s doc = true ↔
        (s.searchQuery = "" ∨
          jsIncludes (toLowerCase doc.title) (toLowerCase s.searchQuery) = true ∨
          ∃ summary, doc.simplified_summary = some summary ∧
            jsIncludes (toLowerCase summary) (toLowerCase s.searchQuery) = true) ∧
        (s.selectedCategory = "all" ∨ doc.category = s.selectedCategory) ∧
        (s.selectedStatus = "all" ∨ doc.processing_status = s.selectedStatus)) ∧
      (∀ doc, doc ∈ (filterDocuments toLowerCase s).filteredDocuments ↔
        doc ∈ s.documents ∧ satisfiesFilters toLowerCase s doc = true) ∧
      (filterDocuments toLowerCase s).filteredDocuments.Sublist s.documents ∧
      (s.searchQuery = "" ∧ s.selectedCategory = "all" ∧ s.selectedStatus = "all" →
        (filterDocuments toLowerCase s).filteredDocuments = s.documents) ∧
      (filterDocuments toLowerCase s).documents = s.documents ∧
      (filterDocuments toLowerCase s).searchQuery = s.searchQuery ∧
      (filterDocuments toLowerCase s).selectedCategory = s.selectedCategory ∧
      (filterDocuments toLowerCase s).selectedStatus = s.selectedStatus := by
  have hfilter : (filterDocuments toLowerCase s).filteredDocuments =
      s.documents.filter (satisfiesFilters toLowerCase s) := by
    have hpoint : ∀ doc : Doc, satisfiesFilters toLowerCase s doc =
        ((if s.searchQuery ≠ "" then matchesQuery toLowerCase s.searchQuery doc else true) &&
          ((if s.selectedCategory ≠ "all" then decide (doc.category = s.selectedCategory)
              else true) &&
            (if s.selectedStatus ≠ "all" then decide (doc.processing_status = s.selectedStatus)
              else true))) := by
      intro doc
      have bq : (s.searchQuery == "") = decide (s.searchQuery = "") := by
        by_cases h : s.searchQuery = "" <;> simp [h]
      have bc : (s.selectedCategory == "all") = decide (s.selectedCategory = "all") := by
        by_cases h : s.selectedCategory = "all" <;> simp [h]
      have bs : (s.selectedStatus == "all") = decide (s.selectedStatus = "all") := by
        by_cases h : s.selectedStatus = "all" <;> simp [h]
      have bcat : (doc.category == s.selectedCategory) =
          decide (doc.category = s.selectedCategory) := by
        by_cases h : doc.category = s.selectedCategory <;> simp [h]
      have bst : (doc.processing_status == s.selectedStatus) =
          decide (doc.processing_status = s.selectedStatus) := by
        by_cases h : doc.processing_status = s.selectedStatus <;> simp [h]
      unfold satisfiesFilters matchesQuery
      rw [bq, bc, bs, bcat, bst]
      by_cases hq : s.searchQuery = "" <;> by_cases hc : s.selectedCategory = "all" <;>
        by_cases hs : s.selectedStatus = "all" <;>
        cases hsum : doc.simplified_summary <;>
        simp [hq, hc, hs, hsum, Bool.and_assoc]
    have hfun : satisfiesFilters toLowerCase s = fun doc =>
        ((if s.searchQuery ≠ "" then matchesQuery toLowerCase s.searchQuery doc else true) &&
          ((if s.selectedCategory ≠ "all" then decide (doc.category = s.selectedCategory)
              else true) &&
            (if s.selectedStatus ≠ "all" then decide (doc.processing_status = s.selectedStatus)
              else true))) := funext hpoint
    rw [hfun]
    unfold filterDocuments
    simp only
    by_cases hq : s.searchQuery = "" <;> by_cases hc : s.selectedCategory = "all" <;>
      by_cases hs : s.selectedStatus = "all" <;>
      simp [hq, hc, hs, List.filter_filter, Bool.and_comm, Bool.and_left_comm]
    simp only [Bool.and_assoc]
  refine ⟨hfilter, ?_, ?_, ?_, ?_, rfl, rfl, rfl, rfl⟩
  · intro doc
    cases hsum : doc.simplified_summary <;>
      simp [satisfiesFilters, hsum, and_assoc, or_assoc]
  · intro doc
    rw [hfilter, List.mem_filter]
  · rw [hfilter]
    exact List.filter_sublist _
  · rintro ⟨hq, hc, hs⟩
    rw [hfilter]
    apply List.filter_eq_self.mpr
    intro doc _
    simp [satisfiesFilters, hq, hc, hs]

/-- C30 at a concrete input: the query `fever` and the category `medical`
keep the first and the third of `sampleDocuments`, in that order; the first
matches through its summary, the third through its title. -/
theorem filterDocuments_spec_witness :
    (filterDocuments asciiLower sampleLibrary).filteredDocuments =
        [{ title := "Report.pdf", simplified_summary := some "Mild FEVER, rest advised.",
           category := "medical", processing_status := "completed" },
         { title := "Fever chart.png", simplified_summary := some "A chart.",
           category := "medical", processing_status := "completed" }] ∧
      (filterDocuments asciiLower unfilteredLibrary).filteredDocuments = sampleDocuments :=
  ⟨(filterDocuments_spec asciiLower sampleLibrary).1.trans (by decide),
    (filterDocuments_spec asciiLower unfilteredLibrary).2.2.2.2.1 ⟨rfl, rfl, rfl⟩⟩

end Library

end CommonEase
